import Mathlib

/-!
Verification development for the IndestructibleAutoOps agent-orchestration core
(`src/indestructibleautoops/agents/`): the communication bus (`communication.py`),
the registry (`registry.py`), the coordinator (`coordination.py`) and the
lifecycle manager (`lifecycle.py`), shallowly embedded in Lean 4.

Conventions of the embedding:
* Python `dict`s and the per-component tables become association lists over
  `String` keys, with `dict`-assignment semantics (replace in place, else append).
* Python object references to mutable payload dictionaries are modelled by a
  heap: a message's `payload` field is an address (`Nat`) into a `Heap`, so that
  sharing of one payload dict between two messages is expressible.
* `time.time()` values become `Nat` parameters (`now`); the float comparison
  `now - t > d` is rendered `t + d < now`.
* `queue.Queue` is modelled with its real CPython semantics: `Queue()` has
  `maxsize = 0`, which means *unbounded*; `put(timeout=..)` on a queue that
  is not full succeeds immediately, and on a full queue (no concurrent
  consumer in these single-threaded scenarios) fails after the timeout.
* Methods that can raise return `Except`/`Option`; methods returning booleans
  return `Bool`.
-/

namespace IAOps

/-! ## Association-list primitives (Python `dict` over `String` keys) -/

/-- Lookup in an association list (first binding wins, like a Python dict
whose keys are unique). -/
def alookup {β : Type} : List (String × β) → String → Option β
  | [], _ => none
  | (k, v) :: rest, key => if k = key then some v else alookup rest key

/-- Python `d[k] = v`: replace the binding in place if the key is present,
otherwise append the new binding at the end (dict insertion order). -/
def aset {β : Type} : List (String × β) → String → β → List (String × β)
  | [], key, v => [(key, v)]
  | (k, w) :: rest, key, v =>
    if k = key then (key, v) :: rest else (k, w) :: aset rest key v

/-- Python `del d[k]` (first binding with the key). -/
def aerase {β : Type} : List (String × β) → String → List (String × β)
  | [], _ => []
  | (k, w) :: rest, key => if k = key then rest else (k, w) :: aerase rest key

/-- The key list of an association list. -/
def akeys {β : Type} (l : List (String × β)) : List String := l.map Prod.fst

/-! ## Messages (`base.py`)

`MessageType` is the enum of `base.py`; `mtValue` is the `.value` attribute of
each member. -/

inductive MessageType where
  | SPAWN | INIT | READY | SHUTDOWN | TERMINATE
  | TASK_ASSIGN | TASK_START | TASK_COMPLETE | TASK_FAIL | TASK_RETRY
  | HEARTBEAT | STATUS_REQUEST | STATUS_RESPONSE
  | DATA_REQUEST | DATA_RESPONSE | DATA_PUSH
  | POLICY_CHECK | POLICY_VIOLATION | APPROVAL_REQUEST | APPROVAL_RESPONSE
  | ERROR
deriving DecidableEq, Repr

/-- The `.value` string of each `MessageType` member. -/
def mtValue : MessageType → String
  | .SPAWN => "spawn"
  | .INIT => "init"
  | .READY => "ready"
  | .SHUTDOWN => "shutdown"
  | .TERMINATE => "terminate"
  | .TASK_ASSIGN => "task_assign"
  | .TASK_START => "task_start"
  | .TASK_COMPLETE => "task_complete"
  | .TASK_FAIL => "task_fail"
  | .TASK_RETRY => "task_retry"
  | .HEARTBEAT => "heartbeat"
  | .STATUS_REQUEST => "status_request"
  | .STATUS_RESPONSE => "status_response"
  | .DATA_REQUEST => "data_request"
  | .DATA_RESPONSE => "data_response"
  | .DATA_PUSH => "data_push"
  | .POLICY_CHECK => "policy_check"
  | .POLICY_VIOLATION => "policy_violation"
  | .APPROVAL_REQUEST => "approval_request"
  | .APPROVAL_RESPONSE => "approval_response"
  | .ERROR => "error"

/-- In Python the `msg_type` field is dynamically typed: normally it holds a
`MessageType` member, but `AgentMessage(**message.to_dict())` stores the raw
`.value` string instead (because `to_dict` emits `self.msg_type.value` and the
dataclass constructor performs no conversion). -/
inductive MsgTypeVal where
  | enum (t : MessageType)
  | str (s : String)
deriving DecidableEq, Repr

/-- Python `==` between two `msg_type` field values: `MessageType.__eq__` is
identity, and an enum member never equals a plain string (`str.__eq__` returns
`NotImplemented` and the reflected enum comparison is identity-based `False`). -/
def msgTypeEqB : MsgTypeVal → MsgTypeVal → Bool
  | .enum a, .enum b => a = b
  | .str a, .str b => a = b
  | _, _ => false

/-- A payload dictionary: string keys to opaque values (rendered as strings). -/
abbrev PyDict := List (String × String)

/-- The heap of payload dictionaries; a message's `payload` field is an
address into this heap, so two messages can share one mutable dict. -/
abbrev Heap := List (Nat × PyDict)

/-- Lookup of a heap address. -/
def heapGet : Heap → Nat → Option PyDict
  | [], _ => none
  | (a, d) :: rest, addr => if a = addr then some d else heapGet rest addr

/-- Models `d[k] = v` performed on the dict stored at `addr`. -/
def heapSetKey : Heap → Nat → String → String → Heap
  | [], _, _, _ => []
  | (a, d) :: rest, addr, k, v =>
    if a = addr then (a, aset d k v) :: rest else (a, d) :: heapSetKey rest addr k v

/-- Models `AgentMessage` of `base.py`.  `payload` is the heap address of the payload
dict; `timestamp` is a clock reading. -/
structure AgentMessage where
  msg_id : String
  msg_type : MsgTypeVal
  sender_id : String
  recipient_id : String
  timestamp : Nat
  payload : Nat
  correlation_id : String
  reply_to : String
deriving DecidableEq, Repr

/-- The dictionary produced by `AgentMessage.to_dict`.  Its `msg_type` entry is
`self.msg_type.value`: this only exists when the field holds an enum member; on
a string-typed field Python would raise `AttributeError`, hence the `Option`.
The `payload` entry is `self.payload` itself — the same dict object, not a
copy. -/
structure MessageDict where
  msg_id : String
  msg_type_value : String
  sender_id : String
  recipient_id : String
  timestamp : Nat
  payload : Nat
  correlation_id : String
  reply_to : String
deriving DecidableEq, Repr

/-- Models `AgentMessage.to_dict` (`base.py` lines 72-83). -/
def msgToDict (m : AgentMessage) : Option MessageDict :=
  match m.msg_type with
  | .enum t => some
      { msg_id := m.msg_id
        msg_type_value := mtValue t
        sender_id := m.sender_id
        recipient_id := m.recipient_id
        timestamp := m.timestamp
        payload := m.payload
        correlation_id := m.correlation_id
        reply_to := m.reply_to }
  | .str _ => none

/-- Models `AgentMessage(**d)`: the dataclass constructor stores each keyword argument
as given; in particular the `msg_type` entry, which in a `to_dict` output is the
raw value string, is stored as that string. -/
def msgOfDict (d : MessageDict) : AgentMessage :=
  { msg_id := d.msg_id
    msg_type := .str d.msg_type_value
    sender_id := d.sender_id
    recipient_id := d.recipient_id
    timestamp := d.timestamp
    payload := d.payload
    correlation_id := d.correlation_id
    reply_to := d.reply_to }

/-- Python `==` of two `AgentMessage` dataclass values (field-tuple equality).
Payload dicts are compared by content through the heap, every other field by
value; `msg_type` via `msgTypeEqB`. -/
def dictEqB (d₁ d₂ : PyDict) : Bool :=
  d₁.all (fun kv => alookup d₂ kv.1 = some kv.2) &&
  d₂.all (fun kv => alookup d₁ kv.1 = some kv.2)

/-- Python `==` on messages, with the heap supplying payload contents. -/
def pyEqMessageB (h : Heap) (m₁ m₂ : AgentMessage) : Bool :=
  (m₁.msg_id = m₂.msg_id : Bool) &&
  msgTypeEqB m₁.msg_type m₂.msg_type &&
  (m₁.sender_id = m₂.sender_id : Bool) &&
  (m₁.recipient_id = m₂.recipient_id : Bool) &&
  (m₁.timestamp = m₂.timestamp : Bool) &&
  dictEqB ((heapGet h m₁.payload).getD []) ((heapGet h m₂.payload).getD []) &&
  (m₁.correlation_id = m₂.correlation_id : Bool) &&
  (m₁.reply_to = m₂.reply_to : Bool)

/-- Models `m.msg_type == t` for a filter keyed on a `MessageType` member, as in
`get_history`'s `[m for m in results if m.msg_type == msg_type]`. -/
def msgTypeMatches (m : AgentMessage) (t : MessageType) : Bool :=
  msgTypeEqB m.msg_type (.enum t)

/-- Models `self._message_handlers.get(message.msg_type)` in `Agent.handle_message`:
the handler table is keyed by `MessageType` members, so a lookup with a raw
string `msg_type` finds nothing (no enum key equals a string). -/
def handlersGet {H : Type} (handlers : List (MessageType × H)) :
    MsgTypeVal → Option H
  | .enum t => handlers.lookup t
  | .str _ => none

/-! ## Queues and the communication bus (`communication.py`) -/

/-- CPython `queue.Queue`: `maxsize = 0` means unbounded.  `Queue()` — the
`default_factory` used by `MessageQueue` — has `maxsize = 0`. -/
structure PyQueue where
  items : List AgentMessage
  maxsize : Nat
deriving DecidableEq, Repr

/-- Models `Queue.put(item, timeout=..)` with no concurrent consumer: succeeds (FIFO
append) unless the queue is bounded and full, in which case it raises
`queue.Full` after the timeout — rendered as `none`. -/
def PyQueue.put (q : PyQueue) (m : AgentMessage) : Option PyQueue :=
  if q.maxsize = 0 ∨ q.items.length < q.maxsize then
    some { q with items := q.items ++ [m] }
  else
    none

/-- Models `Queue.get(timeout=..)` with no concurrent producer: the head, or `none`
(`queue.Empty`) when empty. -/
def PyQueue.get (q : PyQueue) : Option (AgentMessage × PyQueue) :=
  match q.items with
  | [] => none
  | m :: rest => some (m, { q with items := rest })

/-- Models `MessageQueue` of `communication.py` (lines 21-69).  Note the faithful
slip: the dataclass *stores* `max_size`, but its queues are created by
`field(default_factory=Queue)`, i.e. `Queue()` with `maxsize = 0` — `max_size`
is never passed to either queue. -/
structure MessageQueue where
  agent_id : String
  inbound : PyQueue
  outbound : PyQueue
  max_size : Nat
deriving DecidableEq, Repr

/-- Models `MessageQueue(agent_id=.., max_size=..)` as built by
`AgentCommunicationBus.register_agent`: both queues are `Queue()` —
unbounded — regardless of `max_size`. -/
def MessageQueue.new (agent_id : String) (max_size : Nat) : MessageQueue :=
  { agent_id := agent_id
    inbound := { items := [], maxsize := 0 }
    outbound := { items := [], maxsize := 0 }
    max_size := max_size }

/-- Models `MessageQueue.put_inbound`: `True` on success, `False` when the underlying
`put` raises. -/
def MessageQueue.putInbound (q : MessageQueue) (m : AgentMessage) :
    Bool × MessageQueue :=
  match q.inbound.put m with
  | some inb => (true, { q with inbound := inb })
  | none => (false, q)

/-- Models `AgentCommunicationBus` state (`communication.py` lines 75-83): its fields
are the queue table, the topic-subscriber table, the history ring with its
bound, the configured `max_queue_size`, and the delivery-loop flag.  It has no
field that stores reply callbacks. -/
structure BusState where
  queues : List (String × MessageQueue)
  subscribers : List (String × List String)
  history : List AgentMessage
  maxHistory : Nat
  maxQueueSize : Nat
  running : Bool
deriving DecidableEq, Repr

/-- A freshly constructed `AgentCommunicationBus(max_queue_size)`. -/
def BusState.new (maxQueueSize : Nat) : BusState :=
  { queues := [], subscribers := [], history := [], maxHistory := 1000
    maxQueueSize := maxQueueSize, running := false }

/-- Models `register_agent` (lines 85-93): idempotent; creates the queue pair with
`max_size = self._max_queue_size` if absent. -/
def registerAgent (bus : BusState) (agent_id : String) : BusState :=
  match alookup bus.queues agent_id with
  | some _ => bus
  | none =>
    { bus with queues := aset bus.queues agent_id (MessageQueue.new agent_id bus.maxQueueSize) }

/-- Models `unregister_agent` (lines 95-104): clears and drops the queue pair and
removes the agent from every topic's subscriber set. -/
def unregisterAgent (bus : BusState) (agent_id : String) : BusState :=
  { bus with
    queues := aerase bus.queues agent_id
    subscribers := bus.subscribers.map (fun ts => (ts.1, ts.2.erase agent_id)) }

/-- Models `subscribe` (lines 106-109): set insertion. -/
def subscribeAgent (bus : BusState) (agent_id topic : String) : BusState :=
  let cur := (alookup bus.subscribers topic).getD []
  let cur' := if agent_id ∈ cur then cur else cur ++ [agent_id]
  { bus with subscribers := aset bus.subscribers topic cur' }

/-- Models `_add_to_history` (lines 283-287): append, then drop the oldest entry when
over the bound. -/
def addToHistory (bus : BusState) (m : AgentMessage) : BusState :=
  let h := bus.history ++ [m]
  { bus with history := if bus.maxHistory < h.length then h.drop 1 else h }

/-- Models `send` (lines 116-136): `False` on an empty recipient or unknown recipient;
otherwise `put_inbound` into the recipient's queue, recording history on
success. -/
def sendMsg (bus : BusState) (m : AgentMessage) : Bool × BusState :=
  if m.recipient_id = "" then
    (false, bus)
  else
    match alookup bus.queues m.recipient_id with
    | none => (false, bus)
    | some q =>
      match q.putInbound m with
      | (true, q') =>
        (true, addToHistory { bus with queues := aset bus.queues m.recipient_id q' } m)
      | (false, q') =>
        (false, { bus with queues := aset bus.queues m.recipient_id q' })

/-- Number of messages in an agent's inbound queue (`qsize` of the inbound
half of `MessageQueue.size`). -/
def inboundLen (bus : BusState) (agent_id : String) : Nat :=
  match alookup bus.queues agent_id with
  | none => 0
  | some q => q.inbound.items.length

/-- The loop of `broadcast` (lines 145-156) over the queue table.  Each
delivery clones the message as `AgentMessage(**message.to_dict())` — which
raises `AttributeError` (rendered `none`) if `msg_type` is already a raw
string — and stamps the recipient.  Returns the updated queue table, the
delivery count, and the clones actually enqueued, in delivery order. -/
def broadcastGo (md : Option MessageDict) (senderId : String) (excludeSender : Bool) :
    List (String × MessageQueue) →
    Option (List (String × MessageQueue) × Nat × List AgentMessage)
  | [] => some ([], 0, [])
  | (aid, q) :: rest =>
    if excludeSender ∧ aid = senderId then
      (broadcastGo md senderId excludeSender rest).map
        (fun r => ((aid, q) :: r.1, r.2.1, r.2.2))
    else
      match md with
      | none => none
      | some d =>
        let msg := { msgOfDict d with recipient_id := aid }
        match q.putInbound msg with
        | (true, q') =>
          (broadcastGo md senderId excludeSender rest).map
            (fun r => ((aid, q') :: r.1, r.2.1 + 1, msg :: r.2.2))
        | (false, q') =>
          (broadcastGo md senderId excludeSender rest).map
            (fun r => ((aid, q') :: r.1, r.2.1, r.2.2))

/-- Models `broadcast` (lines 138-158): per-recipient clones into every registered
agent's inbound queue (optionally excluding the sender), then the *original*
message is appended to history.  Returns the delivery count and the delivered
clones. -/
def broadcastMsg (bus : BusState) (m : AgentMessage) (excludeSender : Bool) :
    Option (BusState × Nat × List AgentMessage) :=
  (broadcastGo (msgToDict m) m.sender_id excludeSender bus.queues).map
    (fun r => (addToHistory { bus with queues := r.1 } m, r.2.1, r.2.2))

/-- The loop of `publish` (lines 171-181) over the topic's subscribers.
A subscriber without a queue is skipped before the clone is built.  For a
subscriber with a queue, the clone is built via `to_dict` (sharing the payload
dict by reference), the recipient is stamped, and `msg.payload["topic"] =
topic` writes through the shared reference — mutating the heap cell that the
original message's `payload` also points to — before the enqueue. -/
def publishGo (topic : String) (md : Option MessageDict) :
    List String → BusState → Heap →
    Option (BusState × Heap × Nat × List AgentMessage)
  | [], bus, heap => some (bus, heap, 0, [])
  | aid :: rest, bus, heap =>
    match alookup bus.queues aid with
    | none => publishGo topic md rest bus heap
    | some q =>
      match md with
      | none => none
      | some d =>
        let msg := { msgOfDict d with recipient_id := aid }
        let heap' := heapSetKey heap msg.payload "topic" topic
        match q.putInbound msg with
        | (true, q') =>
          (publishGo topic md rest { bus with queues := aset bus.queues aid q' } heap').map
            (fun r => (r.1, r.2.1, r.2.2.1 + 1, msg :: r.2.2.2))
        | (false, q') =>
          (publishGo topic md rest { bus with queues := aset bus.queues aid q' } heap').map
            (fun r => (r.1, r.2.1, r.2.2.1, r.2.2.2))

/-- Models `publish` (lines 160-183): deliver to the topic's subscribers only.
Unlike `send` and `broadcast`, nothing is added to history. -/
def publishMsg (bus : BusState) (heap : Heap) (topic : String) (m : AgentMessage) :
    Option (BusState × Heap × Nat × List AgentMessage) :=
  publishGo topic (msgToDict m) ((alookup bus.subscribers topic).getD []) bus heap

/-- The local `callback` closure defined inside `request` (lines 202-206): it
would enqueue a response whose `correlation_id` matches the request's. -/
def requestCallback (corrId : String) (resp : AgentMessage) : Bool :=
  resp.correlation_id = corrId

/-- The messages on which `request`'s local `callback` is ever invoked.  The
closure is only *defined* in `request`; it is never passed to the bus or any
other component, and `AgentCommunicationBus` has no field that could store it
(see `BusState`, mirroring `__init__` lines 75-83).  So however many responses
(`delivered`) arrive on the bus during the wait window, the callback runs on
none of them. -/
def callbackInvocationSites (_bus : BusState) (_delivered : List AgentMessage) :
    List AgentMessage := []

/-- Models `request` (lines 185-217): fill in a fresh correlation id if empty, `send`
the request (`none` if that fails), then poll the local `reply_queue` — whose
contents are the callback invocations that matched — until the timeout, and
return `none` when no reply ever appears there.  `delivered` stands for all
response messages delivered on the bus while `request` is polling; `genCorr`
for the generated `uuid4` string. -/
def requestModel (bus : BusState) (m : AgentMessage) (genCorr : String)
    (delivered : List AgentMessage) : Option AgentMessage :=
  let corr := if m.correlation_id = "" then genCorr else m.correlation_id
  let m' := { m with correlation_id := corr }
  let sent := sendMsg bus m'
  if sent.1 = false then none
  else
    let replyQueue :=
      (callbackInvocationSites bus delivered).filter (requestCallback corr)
    replyQueue.head?

/-! ## Registry (`registry.py`) -/

/-- Models `AgentMetadata` of `registry.py` (lines 19-30).  `config` is omitted: it is
opaque and never read by the orchestration core. -/
structure AgentMetadata where
  agent_id : String
  agent_type : String
  capabilities : List String
  state : String
  created_at : Nat
  last_seen : Nat
  tags : List String
deriving DecidableEq, Repr

/-- Models `AgentRegistry` state (lines 36-42).  `_agents` maps ids to the external
`Agent` objects; only its key set matters to the core, so it is kept as the
id list.  The index values are Python sets kept as duplicate-free lists. -/
structure RegistryState where
  agents : List String
  metadata : List (String × AgentMetadata)
  capIndex : List (String × List String)
  tagIndex : List (String × List String)
deriving DecidableEq, Repr

/-- Set insertion into an index bucket (`_index_capabilities` /
`_index_tags`, lines 191-203). -/
def indexAdd (idx : List (String × List String)) (key agent_id : String) :
    List (String × List String) :=
  let cur := (alookup idx key).getD []
  let cur' := if agent_id ∈ cur then cur else cur ++ [agent_id]
  aset idx key cur'

/-- Models `set.discard` on an index bucket; a missing bucket is left as is (in the
states reachable by `register`/`unregister` every capability or tag of a
registered agent has a bucket). -/
def indexDiscard (idx : List (String × List String)) (key agent_id : String) :
    List (String × List String) :=
  match alookup idx key with
  | none => idx
  | some cur => aset idx key (cur.erase agent_id)

/-- Models `register` (lines 44-72): `ValueError` on a duplicate id; otherwise store
the agent and its metadata (state `"idle"`, timestamps `now`) and index its
capabilities and tags.  Listener callbacks touch no registry state. -/
def registerR (st : RegistryState) (agent_id agent_type : String)
    (caps tags : List String) (now : Nat) : Except Unit RegistryState :=
  if agent_id ∈ st.agents then .error ()
  else
    .ok { agents := st.agents ++ [agent_id]
          metadata := aset st.metadata agent_id
            { agent_id := agent_id, agent_type := agent_type
              capabilities := caps, state := "idle"
              created_at := now, last_seen := now, tags := tags }
          capIndex := caps.foldl (fun idx c => indexAdd idx c agent_id) st.capIndex
          tagIndex := tags.foldl (fun idx t => indexAdd idx t agent_id) st.tagIndex }

/-- Models `unregister` (lines 74-95): `ValueError` on an unknown id; otherwise the
metadata `state` is set to `"terminated"` (immediately discarded with the
entry), the id is removed from the capability and tag buckets of its own
metadata, and both table entries are deleted. -/
def unregisterR (st : RegistryState) (agent_id : String) :
    Except Unit RegistryState :=
  if agent_id ∈ st.agents then
    match alookup st.metadata agent_id with
    | none => .ok { st with agents := st.agents.erase agent_id
                            metadata := aerase st.metadata agent_id }
    | some md =>
      .ok { agents := st.agents.erase agent_id
            metadata := aerase st.metadata agent_id
            capIndex := md.capabilities.foldl
              (fun idx c => indexDiscard idx c agent_id) st.capIndex
            tagIndex := md.tags.foldl
              (fun idx t => indexDiscard idx t agent_id) st.tagIndex }
  else .error ()

/-- Models `update_agent_state` (lines 163-168): a silent no-op on an unknown id;
otherwise sets the availability state and refreshes `last_seen`. -/
def updateAgentState (st : RegistryState) (agent_id state : String) (now : Nat) :
    RegistryState :=
  match alookup st.metadata agent_id with
  | none => st
  | some md =>
    let md' : AgentMetadata := { md with state := state, last_seen := now }
    { st with metadata := aset st.metadata agent_id md' }

/-- The loop of `cleanup_stale_agents` (lines 219-225), iterating over a
snapshot of `self._metadata.items()` with CPython's dict-iterator semantics:
every call of the iterator's `next` — including the final exhausting one —
first checks whether the dict's size has changed since iteration began, and
raises `RuntimeError` (rendered `.error ()`) if it has.  `unregister` deletes
from `self._metadata`, so the first successfully removed stale agent poisons
the very next step of the loop; the `except ValueError: pass` around
`unregister` does not catch a `RuntimeError`. -/
def cleanupGo (now timeout : Nat) :
    List (String × AgentMetadata) → RegistryState → Bool →
    Except Unit (List String × RegistryState)
  | _, _, true => .error ()
  | [], st, false => .ok ([], st)
  | (aid, md) :: rest, st, false =>
    if md.last_seen + timeout < now then
      match unregisterR st aid with
      | .ok st' =>
        (cleanupGo now timeout rest st' true).map (fun r => (aid :: r.1, r.2))
      | .error _ => cleanupGo now timeout rest st false
    else
      cleanupGo now timeout rest st false

/-- Models `cleanup_stale_agents(timeout)` (lines 213-227): intended to remove every
agent unseen for longer than `timeout` and return their ids; `now` is the
`time.time()` reading taken at entry. -/
def cleanupStaleAgents (st : RegistryState) (now timeout : Nat) :
    Except Unit (List String × RegistryState) :=
  cleanupGo now timeout st.metadata st false

/-! ## Coordinator (`coordination.py`) -/

/-- Models `TaskStatus` (lines 23-32). -/
inductive TaskStatus where
  | pending | assigned | running | completed | failed | cancelled | retrying
deriving DecidableEq, Repr

/-- Models `Task` (lines 35-52).  `payload` and `context` are opaque dicts the
coordinator only forwards; `payload` keeps its heap address, `context` is
dropped (never read by the scheduling logic). -/
structure Task where
  task_id : String
  task_type : String
  payload : Nat
  required_capabilities : List String
  required_tags : List String
  priority : Int
  timeout : Nat
  max_retries : Nat
  retry_count : Nat
  created_at : Nat
  assigned_to : Option String
  status : TaskStatus
  depends_on : List String
deriving DecidableEq, Repr

/-- Models `TaskResult` (lines 74-85).  The result payload is an opaque heap
address. -/
structure TaskResult where
  task_id : String
  status : TaskStatus
  result : Option Nat
  error : Option String
  agent_id : Option String
  started_at : Option Nat
  completed_at : Option Nat
  duration : Option Nat
deriving DecidableEq, Repr

/-- Models `AgentCoordinator` state (lines 113-131): the task table, the result
table, the running map (task id → agent id), the pending queue, the
completed-id list, the concurrency limit, and the registry the coordinator
shares (`self.registry`).  The communication bus is also shared, but the only
coordinator write to it is the `TASK_ASSIGN` `send` in
`_assign_task_to_agent`, which touches no coordinator or registry state; the
bus is modelled separately above. -/
structure CoordState where
  registry : RegistryState
  tasks : List (String × Task)
  results : List (String × TaskResult)
  runningTasks : List (String × String)
  pendingTasks : List String
  completedTasks : List String
  maxConcurrent : Nat
deriving DecidableEq, Repr

/-- Models `submit_task` (lines 154-159): store the task and append its id to the
pending queue. -/
def submitTask (s : CoordState) (t : Task) : CoordState :=
  { s with tasks := aset s.tasks t.task_id t
           pendingTasks := s.pendingTasks ++ [t.task_id] }

/-- Models `_are_dependencies_satisfied` (lines 438-444): every dependency id has a
recorded result with status `COMPLETED`. -/
def depsSatisfied (s : CoordState) (t : Task) : Bool :=
  t.depends_on.all (fun d =>
    match alookup s.results d with
    | some r => r.status = .completed
    | none => false)

/-- Models `_assign_task_to_agent` (lines 371-394): mark the task `ASSIGNED` with its
agent, enter it in the running map, drop it from the pending queue, and flip
the agent to `busy` in the registry.  (The `TASK_ASSIGN` message `send` only
touches the bus.) -/
def assignTaskToAgent (s : CoordState) (t : Task) (agent_id : String) (now : Nat) :
    CoordState :=
  let t' := { t with assigned_to := some agent_id, status := .assigned }
  { s with tasks := aset s.tasks t.task_id t'
           runningTasks := aset s.runningTasks t.task_id agent_id
           pendingTasks := s.pendingTasks.erase t.task_id
           registry := updateAgentState s.registry agent_id "busy" now }

/-- Models `_handle_task_complete` (lines 396-413): remove the task from the running
map; if the task exists, set its status to the result's status and — only when
`if result.agent_id:` is truthy, i.e. the result names a *non-empty* agent id
(both `None` and `""` are falsy in Python) — flip that agent to `idle`; store
the result and append to the completed list. -/
def handleTaskComplete (s : CoordState) (task_id : String) (r : TaskResult)
    (now : Nat) : CoordState :=
  let s₁ := { s with runningTasks := aerase s.runningTasks task_id }
  let s₂ :=
    match alookup s₁.tasks task_id with
    | none => s₁
    | some t =>
      let s' := { s₁ with tasks := aset s₁.tasks task_id ({ t with status := r.status }) }
      match r.agent_id with
      | some a =>
        if a = "" then s'
        else { s' with registry := updateAgentState s'.registry a "idle" now }
      | none => s'
  { s₂ with results := aset s₂.results task_id r
            completedTasks := s₂.completedTasks ++ [task_id] }

/-- Models `_handle_task_timeout` (lines 415-436).  While retries remain: bump
`retry_count`, set the status to `RETRYING` (the code never sets it back to
`PENDING`), clear the assigned agent, drop the task from the running map,
re-append it to the pending queue, and free the agent to `idle`.  Once
exhausted: record a `FAILED` result with error `"Task timed out"` naming the
agent, via `_handle_task_complete`. -/
def handleTaskTimeout (s : CoordState) (t : Task) (agent_id : String) (now : Nat) :
    CoordState :=
  if t.retry_count < t.max_retries then
    let t' := { t with retry_count := t.retry_count + 1
                       status := .retrying
                       assigned_to := none }
    { s with tasks := aset s.tasks t.task_id t'
             runningTasks := aerase s.runningTasks t.task_id
             pendingTasks := s.pendingTasks ++ [t.task_id]
             registry := updateAgentState s.registry agent_id "idle" now }
  else
    handleTaskComplete s t.task_id
      { task_id := t.task_id, status := .failed, result := none
        error := some "Task timed out", agent_id := some agent_id
        started_at := none, completed_at := none, duration := none } now

/-- The loop of `_monitor_tasks` (lines 304-316) over a snapshot of the
running map: a running task whose elapsed time since `created_at` exceeds its
timeout is handed to `_handle_task_timeout`. -/
def monitorGo (now : Nat) : List (String × String) → CoordState → CoordState
  | [], s => s
  | (tid, aid) :: rest, s =>
    match alookup s.tasks tid with
    | none => monitorGo now rest s
    | some t =>
      if t.created_at + t.timeout < now then
        monitorGo now rest (handleTaskTimeout s t aid now)
      else
        monitorGo now rest s

/-- Models `_monitor_tasks`. -/
def monitorTasks (now : Nat) (s : CoordState) : CoordState :=
  monitorGo now s.runningTasks s

/-- The ready-task collection of `_schedule_tasks` (lines 288-293): walk the
pending queue in order, keeping the tasks whose dependencies are satisfied. -/
def readyTasks (s : CoordState) : List Task :=
  (s.pendingTasks.filterMap (fun tid => alookup s.tasks tid)).filter
    (fun t => depsSatisfied s t)

/-- One insertion step of a *stable descending* sort on `priority`: the new
task goes in front of the first task of equal or lower priority.  Because the
sort below inserts each element in front of only *later* list elements, a tie
keeps the original (pending-queue) order — exactly the contract of Python's
stable `list.sort(key=priority, reverse=True)` in `_schedule_tasks` line
296. -/
def insertByPriority (t : Task) : List Task → List Task
  | [] => [t]
  | u :: us =>
    if u.priority ≤ t.priority then t :: u :: us
    else u :: insertByPriority t us

/-- Stable descending sort by `priority` (the semantics of
`ready_tasks.sort(key=lambda t: t.priority, reverse=True)`). -/
def sortByPriorityDesc : List Task → List Task
  | [] => []
  | t :: ts => insertByPriority t (sortByPriorityDesc ts)

/-- The order in which `_schedule_tasks` traverses ready tasks. -/
def scheduleOrder (s : CoordState) : List Task :=
  sortByPriorityDesc (readyTasks s)

/-- The assignment loop of `_schedule_tasks` (lines 299-302) over the sorted
ready slice.  `sel` stands for `_select_agent_for_task` (whose choice among
equal-scored candidates depends on Python set iteration order, hence a
parameter); it reads the state as updated by earlier assignments of the same
pass.  Returns the final state and the assigned task ids in assignment
order. -/
def schedulePassGo (sel : CoordState → Task → Option String) (now : Nat) :
    List Task → CoordState → CoordState × List String
  | [], s => (s, [])
  | t :: ts, s =>
    match sel s t with
    | some a =>
      let r := schedulePassGo sel now ts (assignTaskToAgent s t a now)
      (r.1, t.task_id :: r.2)
    | none => schedulePassGo sel now ts s

/-- Models `_schedule_tasks` (lines 281-302): stop when at the concurrency limit,
else assign ready tasks, in sorted order, up to the remaining capacity
(computed once from the snapshot). -/
def scheduleTasks (sel : CoordState → Task → Option String) (now : Nat)
    (s : CoordState) : CoordState × List String :=
  if s.maxConcurrent ≤ s.runningTasks.length then (s, [])
  else
    schedulePassGo sel now
      ((scheduleOrder s).take (s.maxConcurrent - s.runningTasks.length)) s

/-- One observable coordinator transition, as the claims quantify over them:
a caller `submit_task`, one assignment of the scheduling pass, one
timeout-handling of the monitoring pass, or one externally driven completion
record (`_handle_task_complete`).  Submitted tasks are as created per the data
model: status `PENDING`, no assigned agent.  Recorded results carry a terminal
status; the code checks nothing else about them, so the result's `agent_id` is
arbitrary.  The assignment preconditions are those `_schedule_tasks` and
`_select_agent_for_task` establish for the chosen task/agent pair at the
moment `_assign_task_to_agent` runs: free capacity, the task pending with its
dependencies satisfied, the agent registered, `idle`, and advertising every
required capability and tag. -/
inductive CStep : CoordState → CoordState → Prop where
  | submit (s : CoordState) (t : Task)
      (hstat : t.status = .pending) (hassigned : t.assigned_to = none) :
      CStep s (submitTask s t)
  | assign (s : CoordState) (t : Task) (a : String) (md : AgentMetadata) (now : Nat)
      (hcap : s.runningTasks.length < s.maxConcurrent)
      (hpend : t.task_id ∈ s.pendingTasks)
      (htask : alookup s.tasks t.task_id = some t)
      (hready : depsSatisfied s t = true)
      (hmd : alookup s.registry.metadata a = some md)
      (hidle : md.state = "idle")
      (hcaps : ∀ c ∈ t.required_capabilities, c ∈ md.capabilities)
      (htags : ∀ g ∈ t.required_tags, g ∈ md.tags) :
      CStep s (assignTaskToAgent s t a now)
  | timeout (s : CoordState) (t : Task) (a : String) (now : Nat)
      (hrun : alookup s.runningTasks t.task_id = some a)
      (htask : alookup s.tasks t.task_id = some t)
      (helapsed : t.created_at + t.timeout < now) :
      CStep s (handleTaskTimeout s t a now)
  | record (s : CoordState) (task_id : String) (r : TaskResult) (now : Nat)
      (hterm : r.status = .completed ∨ r.status = .failed ∨ r.status = .cancelled) :
      CStep s (handleTaskComplete s task_id r now)

/-- The same transitions with callers well-behaved as the spec assumes:
submitted task ids are fresh, and a completion is recorded for a task in the
running map with the result naming that task's assigned agent (as the results
produced by workers for their own assignment, and by the timeout path, do). -/
inductive CStepWF : CoordState → CoordState → Prop where
  | submit (s : CoordState) (t : Task)
      (hfresh : alookup s.tasks t.task_id = none)
      (hstat : t.status = .pending) (hassigned : t.assigned_to = none) :
      CStepWF s (submitTask s t)
  | assign (s : CoordState) (t : Task) (a : String) (md : AgentMetadata) (now : Nat)
      (hcap : s.runningTasks.length < s.maxConcurrent)
      (hpend : t.task_id ∈ s.pendingTasks)
      (htask : alookup s.tasks t.task_id = some t)
      (hready : depsSatisfied s t = true)
      (hmd : alookup s.registry.metadata a = some md)
      (hidle : md.state = "idle")
      (hcaps : ∀ c ∈ t.required_capabilities, c ∈ md.capabilities)
      (htags : ∀ g ∈ t.required_tags, g ∈ md.tags) :
      CStepWF s (assignTaskToAgent s t a now)
  | timeout (s : CoordState) (t : Task) (a : String) (now : Nat)
      (hrun : alookup s.runningTasks t.task_id = some a)
      (htask : alookup s.tasks t.task_id = some t)
      (helapsed : t.created_at + t.timeout < now) :
      CStepWF s (handleTaskTimeout s t a now)
  | record (s : CoordState) (task_id : String) (r : TaskResult) (now : Nat)
      (hterm : r.status = .completed ∨ r.status = .failed ∨ r.status = .cancelled)
      (hrun : alookup s.runningTasks task_id = r.agent_id)
      (hsome : r.agent_id ≠ none) :
      CStepWF s (handleTaskComplete s task_id r now)

/-- Coordinator states reachable by the code's own operations. -/
def Reach (s₀ s : CoordState) : Prop := Relation.ReflTransGen CStep s₀ s

/-- Coordinator states reachable under well-behaved callers. -/
def ReachWF (s₀ s : CoordState) : Prop := Relation.ReflTransGen CStepWF s₀ s

/-- A coordinator start state: no tasks, results, running entries or pending
entries yet, no registered worker already marked `busy`, and no worker
registered under the empty-string id (whose falsiness would make
`_handle_task_complete` skip the idle flip). -/
def InitOk (s : CoordState) : Prop :=
  s.tasks = [] ∧ s.results = [] ∧ s.runningTasks = [] ∧ s.pendingTasks = [] ∧
  (∀ a m, alookup s.registry.metadata a = some m → m.state ≠ "busy") ∧
  alookup s.registry.metadata "" = none

/-- The §3 invariant under scrutiny: a registered worker is `busy` exactly
when some task in the running map is assigned to it. -/
def BusyIffAssigned (s : CoordState) : Prop :=
  ∀ a m, alookup s.registry.metadata a = some m →
    (m.state = "busy" ↔ ∃ tid, alookup s.runningTasks tid = some a)

/-! ## Lifecycle manager (`lifecycle.py`) -/

/-- Models `AgentState` of `lifecycle.py` (lines 23-32); `starting` renders
`INITIALIZING`, `shuttingDown` renders `SHUTTING_DOWN`. -/
inductive LifeState where
  | starting | ready | busy | idle | error | shuttingDown | terminated
deriving DecidableEq, Repr

/-- Models `AgentInstance` (lines 35-51); the float health metrics are constants the
core never branches on and are omitted. -/
structure AgentInstance where
  agent_id : String
  agent_type : String
  state : LifeState
  created_at : Nat
  started_at : Nat
  last_heartbeat : Nat
  error_count : Nat
  task_count : Nat
deriving DecidableEq, Repr

/-- Models `AgentLifecycle` state (lines 70-71): the instance table and the
registered type tags (the constructor classes are external worker code, so
only the tag set matters here). -/
structure LifecycleState where
  instances : List (String × AgentInstance)
  agentTypes : List String
deriving DecidableEq, Repr

/-- The distinct exceptional exits of `spawn_agent`. -/
inductive SpawnErr where
  | unknownType | duplicateId | initHookRaised | registryDup
deriving DecidableEq, Repr

/-- Models `spawn_agent` (lines 90-143) as a transformer of the lifecycle, bus and
registry states.  `initRaises` renders whether the worker's async
`initialize()` hook raises.  The success path: instance stored, mailboxes
registered, init hook run (`_initialize_agent` leaves the instance `READY`
with `started_at = now`), then registry registration.  Any exception after the
instance was stored triggers the rollback of lines 135-143 — delete the
instance, unregister the mailboxes — and propagates (`Except.error`).
`caps` are the capability names the constructed worker advertises. -/
def spawnAgent (lc : LifecycleState) (bus : BusState) (reg : RegistryState)
    (agent_type agent_id : String) (caps tags : List String) (now : Nat)
    (initRaises : Bool) :
    (LifecycleState × BusState × RegistryState) × Except SpawnErr AgentInstance :=
  if agent_type ∉ lc.agentTypes then
    ((lc, bus, reg), .error .unknownType)
  else if (alookup lc.instances agent_id).isSome then
    ((lc, bus, reg), .error .duplicateId)
  else
    let inst : AgentInstance :=
      { agent_id := agent_id, agent_type := agent_type, state := .starting
        created_at := now, started_at := 0, last_heartbeat := now
        error_count := 0, task_count := 0 }
    let lc₁ := { lc with instances := aset lc.instances agent_id inst }
    let bus₁ := registerAgent bus agent_id
    if initRaises then
      ((({ lc₁ with instances := aerase lc₁.instances agent_id } : LifecycleState),
        unregisterAgent bus₁ agent_id, reg), .error .initHookRaised)
    else
      let inst' := { inst with state := .ready, started_at := now }
      let lc₂ := { lc₁ with instances := aset lc₁.instances agent_id inst' }
      match registerR reg agent_id agent_type caps tags now with
      | .ok reg' => ((lc₂, bus₁, reg'), .ok inst')
      | .error _ =>
        ((({ lc₂ with instances := aerase lc₂.instances agent_id } : LifecycleState),
          unregisterAgent bus₁ agent_id, reg), .error .registryDup)

/-! ## Association-list lemmas -/

lemma akeys_nil {β : Type} : akeys ([] : List (String × β)) = [] := rfl

lemma akeys_cons {β : Type} (k₀ : String) (w : β) (tl : List (String × β)) :
    akeys ((k₀, w) :: tl) = k₀ :: akeys tl := rfl

lemma mem_akeys_cons {β : Type} (k₀ k' : String) (w : β) (tl : List (String × β)) :
    k' ∈ akeys ((k₀, w) :: tl) ↔ k' = k₀ ∨ k' ∈ akeys tl := by
  rw [akeys_cons, List.mem_cons]

lemma alookup_aset_self {β : Type} (l : List (String × β)) (k : String) (v : β) :
    alookup (aset l k v) k = some v := by
  induction l with
  | nil => simp [aset, alookup]
  | cons hd tl ih =>
    obtain ⟨k', w⟩ := hd
    by_cases h : k' = k <;> simp [aset, alookup, h, ih]

lemma alookup_aset_ne {β : Type} (l : List (String × β)) (k k' : String) (v : β)
    (h : k' ≠ k) : alookup (aset l k v) k' = alookup l k' := by
  induction l with
  | nil =>
    simp only [aset, alookup]
    rw [if_neg (Ne.symm h)]
  | cons hd tl ih =>
    obtain ⟨k₀, w⟩ := hd
    by_cases h₀ : k₀ = k
    · subst h₀
      simp only [aset, if_pos rfl, alookup]
      rw [if_neg (Ne.symm h), if_neg (Ne.symm h)]
    · simp only [aset, if_neg h₀, alookup]
      by_cases h₁ : k₀ = k' <;> simp [h₁, ih]

lemma alookup_aerase_ne {β : Type} (l : List (String × β)) (k k' : String)
    (h : k' ≠ k) : alookup (aerase l k) k' = alookup l k' := by
  induction l with
  | nil => simp [aerase, alookup]
  | cons hd tl ih =>
    obtain ⟨k₀, w⟩ := hd
    by_cases h₀ : k₀ = k
    · subst h₀
      simp only [aerase, if_pos rfl, if_true, alookup]
      rw [if_neg (Ne.symm h)]
    · simp only [aerase, if_neg h₀, alookup]
      by_cases h₁ : k₀ = k' <;> simp [h₁, ih]

lemma akeys_aerase {β : Type} (l : List (String × β)) (k : String) :
    akeys (aerase l k) = (akeys l).erase k := by
  induction l with
  | nil => simp [aerase, akeys_nil]
  | cons hd tl ih =>
    obtain ⟨k₀, w⟩ := hd
    by_cases h₀ : k₀ = k
    · subst h₀
      simp only [aerase, if_pos rfl, if_true, akeys_cons, List.erase_cons_head]
    · rw [aerase, if_neg h₀, akeys_cons, akeys_cons,
        List.erase_cons_tail, ih]
      simp [h₀]

lemma mem_akeys_iff_isSome {β : Type} (l : List (String × β)) (k : String) :
    k ∈ akeys l ↔ (alookup l k).isSome := by
  induction l with
  | nil => simp [akeys_nil, alookup]
  | cons hd tl ih =>
    obtain ⟨k₀, w⟩ := hd
    rw [mem_akeys_cons]
    by_cases h₀ : k₀ = k
    · subst h₀; simp [alookup]
    · rw [alookup, if_neg h₀, ← ih]
      simp [Ne.symm h₀]

lemma alookup_eq_none_of_not_mem {β : Type} (l : List (String × β)) (k : String)
    (h : k ∉ akeys l) : alookup l k = none := by
  have h' := (mem_akeys_iff_isSome l k).not.mp h
  cases hl : alookup l k with
  | none => rfl
  | some v => rw [hl] at h'; simp at h'

lemma alookup_aerase_self {β : Type} (l : List (String × β)) (k : String)
    (h : (akeys l).Nodup) : alookup (aerase l k) k = none := by
  apply alookup_eq_none_of_not_mem
  rw [akeys_aerase]
  exact fun hmem => (List.Nodup.mem_erase_iff h).mp hmem |>.1 rfl

lemma aset_of_not_mem {β : Type} (l : List (String × β)) (k : String) (v : β)
    (h : k ∉ akeys l) : aset l k v = l ++ [(k, v)] := by
  induction l with
  | nil => simp [aset]
  | cons hd tl ih =>
    obtain ⟨k₀, w⟩ := hd
    rw [mem_akeys_cons] at h
    push_neg at h
    rw [aset, if_neg (Ne.symm h.1), ih h.2, List.cons_append]

lemma akeys_aset_of_mem {β : Type} (l : List (String × β)) (k : String) (v : β)
    (h : k ∈ akeys l) : akeys (aset l k v) = akeys l := by
  induction l with
  | nil => simp [akeys_nil] at h
  | cons hd tl ih =>
    obtain ⟨k₀, w⟩ := hd
    by_cases h₀ : k₀ = k
    · subst h₀; simp [aset, akeys_cons]
    · rw [mem_akeys_cons] at h
      rcases h with h | h
      · exact absurd h.symm h₀
      · rw [aset, if_neg h₀, akeys_cons, akeys_cons, ih h]

lemma mem_akeys_aset {β : Type} (l : List (String × β)) (k k' : String) (v : β) :
    k' ∈ akeys (aset l k v) ↔ k' ∈ akeys l ∨ k' = k := by
  induction l with
  | nil => simp [aset, akeys_nil, akeys_cons]
  | cons hd tl ih =>
    obtain ⟨k₀, w⟩ := hd
    by_cases h₀ : k₀ = k
    · subst h₀
      rw [aset, if_pos rfl, mem_akeys_cons, mem_akeys_cons]
      tauto
    · rw [aset, if_neg h₀, mem_akeys_cons, mem_akeys_cons, ih]
      tauto

lemma aerase_append_of_not_mem {β : Type} (l : List (String × β)) (k : String)
    (v : β) (h : k ∉ akeys l) : aerase (l ++ [(k, v)]) k = l := by
  induction l with
  | nil => simp [aerase]
  | cons hd tl ih =>
    obtain ⟨k₀, w⟩ := hd
    rw [mem_akeys_cons] at h
    push_neg at h
    rw [List.cons_append, aerase, if_neg (Ne.symm h.1), ih h.2]

/-! ## C1 — `request` never returns a reply -/

/-- A bus with one registered recipient `"srv"`. -/
def c1bus : BusState := registerAgent (BusState.new 10) "srv"

/-- A request carrying correlation id `"corr-1"` addressed to `"srv"`. -/
def c1req : AgentMessage :=
  { msg_id := "q1", msg_type := .enum .DATA_REQUEST, sender_id := "cli"
    recipient_id := "srv", timestamp := 0, payload := 0
    correlation_id := "corr-1", reply_to := "" }

/-- A response with the matching correlation id, delivered during the wait
window. -/
def c1reply : AgentMessage :=
  { msg_id := "r1", msg_type := .enum .DATA_RESPONSE, sender_id := "srv"
    recipient_id := "cli", timestamp := 1, payload := 1
    correlation_id := "corr-1", reply_to := "" }

/-- C1.  `request` *always* returns `none`: the local reply callback is
defined but never registered with anything, so the polled `reply_queue` stays
empty whatever replies arrive.  In particular, for the registered recipient
`"srv"`, even though the send succeeds and a reply with the matching
correlation id is delivered within the window (it satisfies the callback's
own test), `request` still returns `none` — where the specification promises
the correlated reply. -/
theorem c1_request_always_none :
    (∀ (bus : BusState) (m : AgentMessage) (genCorr : String)
       (delivered : List AgentMessage),
       requestModel bus m genCorr delivered = none) ∧
    requestCallback "corr-1" c1reply = true ∧
    (sendMsg c1bus c1req).1 = true ∧
    requestModel c1bus c1req "gen-uuid" [c1reply] = none := by
  refine ⟨?_, by decide, by decide, by decide⟩
  intro bus m genCorr delivered
  simp [requestModel, callbackInvocationSites]

/-! ## C2 — mailboxes are not bounded by the configured capacity -/

/-- A bus constructed with mailbox capacity 1 and one registered recipient. -/
def c2bus : BusState := registerAgent (BusState.new 1) "r"

/-- First message to `"r"`. -/
def c2msg1 : AgentMessage :=
  { msg_id := "m1", msg_type := .enum .DATA_PUSH, sender_id := "s"
    recipient_id := "r", timestamp := 0, payload := 0
    correlation_id := "", reply_to := "" }

/-- Second message to `"r"`. -/
def c2msg2 : AgentMessage := { c2msg1 with msg_id := "m2" }

/-- C2.  With capacity 1, two consecutive `send`s to the same recipient both
succeed and the recipient's inbound mailbox then holds 2 messages — more than
the configured capacity — because `MessageQueue` stores `max_size` but builds
its queues with `Queue()` (unbounded).  The spec instead demands the second
send fail against a full bounded mailbox. -/
theorem c2_mailboxes_unbounded :
    (sendMsg c2bus c2msg1).1 = true ∧
    (sendMsg (sendMsg c2bus c2msg1).2 c2msg2).1 = true ∧
    inboundLen (sendMsg (sendMsg c2bus c2msg1).2 c2msg2).2 "r" = 2 ∧
    (alookup c2bus.queues "r").map MessageQueue.max_size = some 1 ∧
    (alookup c2bus.queues "r").map (fun q => q.inbound.maxsize) = some 0 := by
  decide

/-! ## C6 — `cleanup_stale_agents` raises instead of returning the removed ids -/

/-- A registry holding a single worker last seen at time 0. -/
def c6reg : RegistryState :=
  { agents := ["a1"]
    metadata := [("a1",
      { agent_id := "a1", agent_type := "worker", capabilities := ["cap"]
        state := "idle", created_at := 0, last_seen := 0, tags := ["t"] })]
    capIndex := [("cap", ["a1"])]
    tagIndex := [("t", ["a1"])] }

/-! ## Coordinator helper lemmas -/

lemma alookup_updateAgentState_self (reg : RegistryState) (a st : String)
    (now : Nat) (m : AgentMetadata) (hm : alookup reg.metadata a = some m) :
    alookup (updateAgentState reg a st now).metadata a =
      some { m with state := st, last_seen := now } := by
  unfold updateAgentState
  rw [hm]
  exact alookup_aset_self _ _ _

lemma alookup_updateAgentState_ne (reg : RegistryState) (a st : String)
    (now : Nat) (a' : String) (hne : a' ≠ a) :
    alookup (updateAgentState reg a st now).metadata a' = alookup reg.metadata a' := by
  unfold updateAgentState
  cases hm : alookup reg.metadata a with
  | none => rfl
  | some m => exact alookup_aset_ne _ _ _ _ hne

lemma handleTaskComplete_eq (s : CoordState) (tid : String) (r : TaskResult)
    (now : Nat) (t : Task) (a : String)
    (ht : alookup s.tasks tid = some t) (hag : r.agent_id = some a)
    (hne : a ≠ "") :
    handleTaskComplete s tid r now =
      { s with runningTasks := aerase s.runningTasks tid
               tasks := aset s.tasks tid ({ t with status := r.status })
               registry := updateAgentState s.registry a "idle" now
               results := aset s.results tid r
               completedTasks := s.completedTasks ++ [tid] } := by
  unfold handleTaskComplete
  simp only [ht, hag, if_neg hne]

lemma handleTaskComplete_eq_emptyagent (s : CoordState) (tid : String)
    (r : TaskResult) (now : Nat) (t : Task)
    (ht : alookup s.tasks tid = some t) (hag : r.agent_id = some "") :
    handleTaskComplete s tid r now =
      { s with runningTasks := aerase s.runningTasks tid
               tasks := aset s.tasks tid ({ t with status := r.status })
               results := aset s.results tid r
               completedTasks := s.completedTasks ++ [tid] } := by
  unfold handleTaskComplete
  simp only [ht, hag, if_pos rfl, if_true]

lemma handleTaskComplete_eq_noagent (s : CoordState) (tid : String)
    (r : TaskResult) (now : Nat) (t : Task)
    (ht : alookup s.tasks tid = some t) (hag : r.agent_id = none) :
    handleTaskComplete s tid r now =
      { s with runningTasks := aerase s.runningTasks tid
               tasks := aset s.tasks tid ({ t with status := r.status })
               results := aset s.results tid r
               completedTasks := s.completedTasks ++ [tid] } := by
  unfold handleTaskComplete
  simp only [ht, hag]

lemma handleTaskComplete_eq_notask (s : CoordState) (tid : String)
    (r : TaskResult) (now : Nat) (ht : alookup s.tasks tid = none) :
    handleTaskComplete s tid r now =
      { s with runningTasks := aerase s.runningTasks tid
               results := aset s.results tid r
               completedTasks := s.completedTasks ++ [tid] } := by
  unfold handleTaskComplete
  simp only [ht]

lemma depsSatisfied_spec (s : CoordState) (t : Task)
    (h : depsSatisfied s t = true) (d : String) (hd : d ∈ t.depends_on) :
    ∃ r, alookup s.results d = some r ∧ r.status = .completed := by
  unfold depsSatisfied at h
  rw [List.all_eq_true] at h
  have hh := h d hd
  cases hr : alookup s.results d with
  | none => rw [hr] at hh; simp at hh
  | some r =>
    rw [hr] at hh
    simp only [decide_eq_true_eq] at hh
    exact ⟨r, rfl, hh⟩

/-! ## The coordinator's inductive invariant (for the busy ↔ assigned claim) -/

/-- The inductive strengthening of `BusyIffAssigned` that all well-formed
coordinator transitions preserve. -/
structure CoordInv (s : CoordState) : Prop where
  busyIff : BusyIffAssigned s
  runInj : ∀ t₁ t₂ a, alookup s.runningTasks t₁ = some a →
    alookup s.runningTasks t₂ = some a → t₁ = t₂
  runNodup : (akeys s.runningTasks).Nodup
  pendNodup : s.pendingTasks.Nodup
  runNotPend : ∀ tid, tid ∈ akeys s.runningTasks → tid ∉ s.pendingTasks
  pendInTasks : ∀ tid, tid ∈ s.pendingTasks → tid ∈ akeys s.tasks
  runInTasks : ∀ tid, tid ∈ akeys s.runningTasks → tid ∈ akeys s.tasks
  noEmptyReg : alookup s.registry.metadata "" = none
  runNoEmpty : ∀ tid, alookup s.runningTasks tid ≠ some ""

lemma exists_aset_fresh_iff (run : List (String × String)) (tid a a' : String)
    (hfresh : tid ∉ akeys run) (hne : a' ≠ a) :
    (∃ t', alookup (aset run tid a) t' = some a') ↔
      ∃ t', alookup run t' = some a' := by
  constructor
  · rintro ⟨t', ht'⟩
    by_cases h : t' = tid
    · subst h
      rw [alookup_aset_self] at ht'
      exact absurd (Option.some.inj ht').symm hne
    · rw [alookup_aset_ne _ _ _ _ h] at ht'
      exact ⟨t', ht'⟩
  · rintro ⟨t', ht'⟩
    have hne' : t' ≠ tid := by
      intro h
      subst h
      rw [alookup_eq_none_of_not_mem _ _ hfresh] at ht'
      exact Option.noConfusion ht'
    exact ⟨t', by rw [alookup_aset_ne _ _ _ _ hne']; exact ht'⟩

lemma exists_aerase_iff (run : List (String × String)) (tid a a' : String)
    (hnodup : (akeys run).Nodup) (hrun : alookup run tid = some a)
    (hne : a' ≠ a) :
    (∃ t', alookup (aerase run tid) t' = some a') ↔
      ∃ t', alookup run t' = some a' := by
  constructor
  · rintro ⟨t', ht'⟩
    by_cases h : t' = tid
    · subst h
      rw [alookup_aerase_self _ _ hnodup] at ht'
      exact Option.noConfusion ht'
    · rw [alookup_aerase_ne _ _ _ h] at ht'
      exact ⟨t', ht'⟩
  · rintro ⟨t', ht'⟩
    have hne' : t' ≠ tid := by
      intro h
      subst h
      rw [hrun] at ht'
      exact hne (Option.some.inj ht').symm
    exact ⟨t', by rw [alookup_aerase_ne _ _ _ hne']; exact ht'⟩

lemma no_exists_aerase_self (run : List (String × String)) (tid a : String)
    (hnodup : (akeys run).Nodup) (hrun : alookup run tid = some a)
    (inj : ∀ t₁ t₂ b, alookup run t₁ = some b → alookup run t₂ = some b → t₁ = t₂) :
    ¬ ∃ t', alookup (aerase run tid) t' = some a := by
  rintro ⟨t', ht'⟩
  by_cases h : t' = tid
  · subst h
    rw [alookup_aerase_self _ _ hnodup] at ht'
    exact Option.noConfusion ht'
  · rw [alookup_aerase_ne _ _ _ h] at ht'
    exact h (inj t' tid a ht' hrun)

lemma coordInv_submit (s : CoordState) (t : Task) (inv : CoordInv s)
    (hfresh : alookup s.tasks t.task_id = none) : CoordInv (submitTask s t) := by
  have hfresh' : t.task_id ∉ akeys s.tasks := by
    intro hmem
    rw [mem_akeys_iff_isSome, hfresh] at hmem
    simp at hmem
  have hfreshPend : t.task_id ∉ s.pendingTasks :=
    fun hmem => hfresh' (inv.pendInTasks _ hmem)
  refine ⟨inv.busyIff, inv.runInj, inv.runNodup, ?_, ?_, ?_, ?_,
    inv.noEmptyReg, inv.runNoEmpty⟩
  · show (s.pendingTasks ++ [t.task_id]).Nodup
    simp [List.nodup_append, inv.pendNodup, hfreshPend]
  · intro tid hmem
    show tid ∉ s.pendingTasks ++ [t.task_id]
    rw [List.mem_append, List.mem_singleton]
    rintro (h | h)
    · exact inv.runNotPend tid hmem h
    · exact hfresh' (h ▸ inv.runInTasks tid hmem)
  · intro tid hmem
    simp only [submitTask] at hmem
    show tid ∈ akeys (aset s.tasks t.task_id t)
    rw [List.mem_append, List.mem_singleton] at hmem
    rw [mem_akeys_aset]
    rcases hmem with h | h
    · exact Or.inl (inv.pendInTasks tid h)
    · exact Or.inr h
  · intro tid hmem
    show tid ∈ akeys (aset s.tasks t.task_id t)
    rw [mem_akeys_aset]
    exact Or.inl (inv.runInTasks tid hmem)

lemma coordInv_assign (s : CoordState) (t : Task) (a : String)
    (md : AgentMetadata) (now : Nat) (inv : CoordInv s)
    (hpend : t.task_id ∈ s.pendingTasks)
    (htask : alookup s.tasks t.task_id = some t)
    (hmd : alookup s.registry.metadata a = some md)
    (hidle : md.state = "idle") :
    CoordInv (assignTaskToAgent s t a now) := by
  have hfreshRun : t.task_id ∉ akeys s.runningTasks :=
    fun hmem => inv.runNotPend _ hmem hpend
  have hNoA : ¬ ∃ t', alookup s.runningTasks t' = some a := by
    rintro ⟨t', ht'⟩
    have hbusy := (inv.busyIff a md hmd).mpr ⟨t', ht'⟩
    rw [hidle] at hbusy
    exact absurd hbusy (by decide)
  have hane : a ≠ "" := by
    intro h
    subst h
    rw [inv.noEmptyReg] at hmd
    exact Option.noConfusion hmd
  refine ⟨?_, ?_, ?_, ?_, ?_, ?_, ?_, ?_, ?_⟩
  · intro a' m' hm'
    simp only [assignTaskToAgent] at hm'
    show m'.state = "busy" ↔ ∃ tid, alookup (aset s.runningTasks t.task_id a) tid = some a'
    by_cases ha : a' = a
    · subst ha
      rw [alookup_updateAgentState_self _ _ _ _ _ hmd] at hm'
      cases Option.some.inj hm'
      exact iff_of_true rfl ⟨t.task_id, alookup_aset_self _ _ _⟩
    · rw [alookup_updateAgentState_ne _ _ _ _ _ ha] at hm'
      rw [exists_aset_fresh_iff _ _ _ _ hfreshRun ha]
      exact inv.busyIff a' m' hm'
  · intro t₁ t₂ a₀ h₁ h₂
    simp only [assignTaskToAgent] at h₁ h₂
    by_cases e₁ : t₁ = t.task_id <;> by_cases e₂ : t₂ = t.task_id
    · rw [e₁, e₂]
    · subst e₁
      rw [alookup_aset_self] at h₁
      rw [alookup_aset_ne _ _ _ _ e₂] at h₂
      cases Option.some.inj h₁
      exact absurd ⟨t₂, h₂⟩ hNoA
    · subst e₂
      rw [alookup_aset_self] at h₂
      rw [alookup_aset_ne _ _ _ _ e₁] at h₁
      cases Option.some.inj h₂
      exact absurd ⟨t₁, h₁⟩ hNoA
    · rw [alookup_aset_ne _ _ _ _ e₁] at h₁
      rw [alookup_aset_ne _ _ _ _ e₂] at h₂
      exact inv.runInj t₁ t₂ a₀ h₁ h₂
  · show (akeys (aset s.runningTasks t.task_id a)).Nodup
    rw [aset_of_not_mem _ _ _ hfreshRun]
    unfold akeys
    rw [List.map_append]
    rw [List.nodup_append]
    refine ⟨inv.runNodup, List.nodup_singleton _, ?_⟩
    intro x hx hx'
    simp only [List.map_cons, List.map_nil, List.mem_singleton] at hx'
    subst hx'
    exact hfreshRun hx
  · exact inv.pendNodup.erase _
  · intro tid hmem hmem'
    simp only [assignTaskToAgent] at hmem hmem'
    rw [mem_akeys_aset] at hmem
    have hmem'' := List.mem_of_mem_erase hmem'
    rcases hmem with h | h
    · exact inv.runNotPend tid h hmem''
    · subst h
      exact ((List.Nodup.mem_erase_iff inv.pendNodup).mp hmem').1 rfl
  · intro tid hmem
    simp only [assignTaskToAgent] at hmem
    show tid ∈ akeys (aset s.tasks t.task_id _)
    rw [mem_akeys_aset]
    exact Or.inl (inv.pendInTasks tid (List.mem_of_mem_erase hmem))
  · intro tid hmem
    simp only [assignTaskToAgent] at hmem
    show tid ∈ akeys (aset s.tasks t.task_id _)
    rw [mem_akeys_aset] at hmem ⊢
    rcases hmem with h | h
    · exact Or.inl (inv.runInTasks tid h)
    · refine Or.inl (h ▸ ?_)
      rw [mem_akeys_iff_isSome, htask]
      rfl
  · show alookup (updateAgentState s.registry a "busy" now).metadata "" = none
    rw [alookup_updateAgentState_ne _ _ _ _ _ (Ne.symm hane)]
    exact inv.noEmptyReg
  · intro tid h
    simp only [assignTaskToAgent] at h
    by_cases e : tid = t.task_id
    · subst e
      rw [alookup_aset_self] at h
      exact hane (Option.some.inj h)
    · rw [alookup_aset_ne _ _ _ _ e] at h
      exact inv.runNoEmpty tid h

lemma updateAgentState_none (reg : RegistryState) (a st : String) (now : Nat)
    (hm : alookup reg.metadata a = none) : updateAgentState reg a st now = reg := by
  unfold updateAgentState
  rw [hm]

/-- Freeing the agent of a removed running entry keeps `busy ↔ assigned`:
after `aerase` of the task and the `idle` flip of its agent, every registered
worker's state again matches the running map. -/
lemma busyIff_free_agent (s : CoordState) (tid a : String) (now : Nat)
    (inv : CoordInv s) (hrun : alookup s.runningTasks tid = some a) :
    ∀ a' m', alookup (updateAgentState s.registry a "idle" now).metadata a' = some m' →
      (m'.state = "busy" ↔ ∃ t', alookup (aerase s.runningTasks tid) t' = some a') := by
  intro a' m' hm'
  cases hmda : alookup s.registry.metadata a with
  | none =>
    rw [updateAgentState_none _ _ _ _ hmda] at hm'
    have ha : a' ≠ a := by
      intro h
      subst h
      rw [hmda] at hm'
      exact Option.noConfusion hm'
    rw [exists_aerase_iff _ _ _ _ inv.runNodup hrun ha]
    exact inv.busyIff a' m' hm'
  | some mda =>
    by_cases ha : a' = a
    · subst ha
      rw [alookup_updateAgentState_self _ _ _ _ _ hmda] at hm'
      cases Option.some.inj hm'
      refine iff_of_false ?_
        (no_exists_aerase_self _ _ _ inv.runNodup hrun inv.runInj)
      show ¬("idle" = "busy")
      decide
    · rw [alookup_updateAgentState_ne _ _ _ _ _ ha] at hm'
      rw [exists_aerase_iff _ _ _ _ inv.runNodup hrun ha]
      exact inv.busyIff a' m' hm'

lemma coordInv_complete (s : CoordState) (tid : String) (r : TaskResult)
    (now : Nat) (inv : CoordInv s) (a : String)
    (hrun : alookup s.runningTasks tid = some a)
    (hag : r.agent_id = some a) (hane : a ≠ "") :
    CoordInv (handleTaskComplete s tid r now) := by
  have htidmem : tid ∈ akeys s.runningTasks := by
    rw [mem_akeys_iff_isSome, hrun]
    rfl
  obtain ⟨t, ht⟩ : ∃ t, alookup s.tasks tid = some t := by
    have hmem := inv.runInTasks tid htidmem
    rw [mem_akeys_iff_isSome] at hmem
    cases hx : alookup s.tasks tid with
    | none => rw [hx] at hmem; simp at hmem
    | some t => exact ⟨t, rfl⟩
  have hEq := handleTaskComplete_eq s tid r now t a ht hag hane
  have hRun : (handleTaskComplete s tid r now).runningTasks =
      aerase s.runningTasks tid := by rw [hEq]
  have hTasks : (handleTaskComplete s tid r now).tasks =
      aset s.tasks tid ({ t with status := r.status }) := by rw [hEq]
  have hReg : (handleTaskComplete s tid r now).registry =
      updateAgentState s.registry a "idle" now := by rw [hEq]
  have hPend : (handleTaskComplete s tid r now).pendingTasks =
      s.pendingTasks := by rw [hEq]
  refine ⟨?_, ?_, ?_, ?_, ?_, ?_, ?_, ?_, ?_⟩
  · intro a' m' hm'
    rw [hReg] at hm'
    rw [hRun]
    exact busyIff_free_agent s tid a now inv hrun a' m' hm'
  · intro t₁ t₂ a₀ h₁ h₂
    rw [hRun] at h₁ h₂
    by_cases e₁ : t₁ = tid
    · subst e₁
      rw [alookup_aerase_self _ _ inv.runNodup] at h₁
      exact Option.noConfusion h₁
    · by_cases e₂ : t₂ = tid
      · subst e₂
        rw [alookup_aerase_self _ _ inv.runNodup] at h₂
        exact Option.noConfusion h₂
      · rw [alookup_aerase_ne _ _ _ e₁] at h₁
        rw [alookup_aerase_ne _ _ _ e₂] at h₂
        exact inv.runInj _ _ _ h₁ h₂
  · rw [hRun, akeys_aerase]
    exact inv.runNodup.erase _
  · rw [hPend]
    exact inv.pendNodup
  · intro tid' hmem
    rw [hRun, akeys_aerase] at hmem
    rw [hPend]
    exact inv.runNotPend tid' (List.mem_of_mem_erase hmem)
  · intro tid' hmem
    rw [hPend] at hmem
    rw [hTasks, mem_akeys_aset]
    exact Or.inl (inv.pendInTasks tid' hmem)
  · intro tid' hmem
    rw [hRun, akeys_aerase] at hmem
    rw [hTasks, mem_akeys_aset]
    exact Or.inl (inv.runInTasks tid' (List.mem_of_mem_erase hmem))
  · rw [hReg]
    rw [alookup_updateAgentState_ne _ _ _ _ _ (Ne.symm hane)]
    exact inv.noEmptyReg
  · intro tid' h
    rw [hRun] at h
    by_cases e : tid' = tid
    · subst e
      rw [alookup_aerase_self _ _ inv.runNodup] at h
      exact Option.noConfusion h
    · rw [alookup_aerase_ne _ _ _ e] at h
      exact inv.runNoEmpty tid' h

lemma coordInv_timeout (s : CoordState) (t : Task) (a : String) (now : Nat)
    (inv : CoordInv s) (hrun : alookup s.runningTasks t.task_id = some a)
    (_htask : alookup s.tasks t.task_id = some t) :
    CoordInv (handleTaskTimeout s t a now) := by
  have hane : a ≠ "" := fun h => inv.runNoEmpty t.task_id (h ▸ hrun)
  by_cases hrt : t.retry_count < t.max_retries
  · have hEq : handleTaskTimeout s t a now =
        { s with tasks := aset s.tasks t.task_id
                   ({ t with retry_count := t.retry_count + 1
                             status := .retrying, assigned_to := none })
                 runningTasks := aerase s.runningTasks t.task_id
                 pendingTasks := s.pendingTasks ++ [t.task_id]
                 registry := updateAgentState s.registry a "idle" now } := by
      simp only [handleTaskTimeout, if_pos hrt]
    have hRun : (handleTaskTimeout s t a now).runningTasks =
        aerase s.runningTasks t.task_id := by rw [hEq]
    have hTasks : (handleTaskTimeout s t a now).tasks =
        aset s.tasks t.task_id
          ({ t with retry_count := t.retry_count + 1
                    status := .retrying, assigned_to := none }) := by rw [hEq]
    have hReg : (handleTaskTimeout s t a now).registry =
        updateAgentState s.registry a "idle" now := by rw [hEq]
    have hPend : (handleTaskTimeout s t a now).pendingTasks =
        s.pendingTasks ++ [t.task_id] := by rw [hEq]
    have htidmem : t.task_id ∈ akeys s.runningTasks := by
      rw [mem_akeys_iff_isSome, hrun]
      rfl
    have htidNotPend : t.task_id ∉ s.pendingTasks := inv.runNotPend _ htidmem
    refine ⟨?_, ?_, ?_, ?_, ?_, ?_, ?_, ?_, ?_⟩
    · intro a' m' hm'
      rw [hReg] at hm'
      rw [hRun]
      exact busyIff_free_agent s t.task_id a now inv hrun a' m' hm'
    · intro t₁ t₂ a₀ h₁ h₂
      rw [hRun] at h₁ h₂
      by_cases e₁ : t₁ = t.task_id
      · subst e₁
        rw [alookup_aerase_self _ _ inv.runNodup] at h₁
        exact Option.noConfusion h₁
      · by_cases e₂ : t₂ = t.task_id
        · subst e₂
          rw [alookup_aerase_self _ _ inv.runNodup] at h₂
          exact Option.noConfusion h₂
        · rw [alookup_aerase_ne _ _ _ e₁] at h₁
          rw [alookup_aerase_ne _ _ _ e₂] at h₂
          exact inv.runInj _ _ _ h₁ h₂
    · rw [hRun, akeys_aerase]
      exact inv.runNodup.erase _
    · rw [hPend]
      simp [List.nodup_append, inv.pendNodup, htidNotPend]
    · intro tid' hmem
      rw [hRun, akeys_aerase] at hmem
      rw [hPend, List.mem_append, List.mem_singleton]
      have hne := (List.Nodup.mem_erase_iff inv.runNodup).mp hmem
      rintro (h | h)
      · exact inv.runNotPend tid' hne.2 h
      · exact hne.1 h
    · intro tid' hmem
      rw [hPend, List.mem_append, List.mem_singleton] at hmem
      rw [hTasks, mem_akeys_aset]
      rcases hmem with h | h
      · exact Or.inl (inv.pendInTasks tid' h)
      · exact Or.inr h
    · intro tid' hmem
      rw [hRun, akeys_aerase] at hmem
      rw [hTasks, mem_akeys_aset]
      exact Or.inl (inv.runInTasks tid' (List.mem_of_mem_erase hmem))
    · rw [hReg]
      rw [alookup_updateAgentState_ne _ _ _ _ _ (Ne.symm hane)]
      exact inv.noEmptyReg
    · intro tid' h
      rw [hRun] at h
      by_cases e : tid' = t.task_id
      · subst e
        rw [alookup_aerase_self _ _ inv.runNodup] at h
        exact Option.noConfusion h
      · rw [alookup_aerase_ne _ _ _ e] at h
        exact inv.runNoEmpty tid' h
  · simp only [handleTaskTimeout, if_neg hrt]
    exact coordInv_complete s t.task_id _ now inv a hrun rfl hane

/-- Every `InitOk` start state satisfies the invariant. -/
lemma coordInv_init (s : CoordState) (h : InitOk s) : CoordInv s := by
  obtain ⟨ht, hr, hrun, hp, hb, hno⟩ := h
  refine ⟨?_, ?_, ?_, ?_, ?_, ?_, ?_, hno, ?_⟩
  · intro a m hm
    refine iff_of_false (hb a m hm) ?_
    rintro ⟨tid, htid⟩
    rw [hrun] at htid
    simp [alookup] at htid
  · intro t₁ t₂ a h₁ h₂
    rw [hrun] at h₁
    simp [alookup] at h₁
  · rw [hrun]
    exact List.nodup_nil
  · rw [hp]
    exact List.nodup_nil
  · intro tid hmem
    rw [hrun] at hmem
    simp [akeys] at hmem
  · intro tid hmem
    rw [hp] at hmem
    simp at hmem
  · intro tid hmem
    rw [hrun] at hmem
    simp [akeys] at hmem
  · intro tid h
    rw [hrun] at h
    simp [alookup] at h

/-- The invariant is preserved by every well-formed coordinator step. -/
lemma coordInv_step (s s' : CoordState) (inv : CoordInv s) (h : CStepWF s s') :
    CoordInv s' := by
  cases h with
  | submit t hfresh hstat hass => exact coordInv_submit s t inv hfresh
  | assign t a md now hcap hpend htask hready hmd hidle hcaps htags =>
    exact coordInv_assign s t a md now inv hpend htask hmd hidle
  | timeout t a now hrun htask helapsed =>
    exact coordInv_timeout s t a now inv hrun htask
  | record task_id r now hterm hrunEq hsome =>
    cases hag : r.agent_id with
    | none => exact absurd hag hsome
    | some a =>
      rw [hag] at hrunEq
      have hane : a ≠ "" := fun h => inv.runNoEmpty task_id (h ▸ hrunEq)
      exact coordInv_complete s task_id r now inv a hrunEq hag hane

/-- Invariance along every well-formed reachable execution. -/
lemma reachWF_coordInv (s₀ s : CoordState) (h₀ : InitOk s₀)
    (hreach : ReachWF s₀ s) : CoordInv s := by
  induction hreach with
  | refl => exact coordInv_init s₀ h₀
  | tail hab hbc ih => exact coordInv_step _ _ ih hbc

/-! ## C4 — busy ↔ assigned -/

/-- The idle worker of the C4 scenario. -/
def c4meta : AgentMetadata :=
  { agent_id := "w", agent_type := "wk", capabilities := [], state := "idle"
    created_at := 0, last_seen := 0, tags := [] }

/-- Start state: one idle registered worker, no tasks. -/
def c4init : CoordState :=
  { registry := { agents := ["w"], metadata := [("w", c4meta)]
                  capIndex := [], tagIndex := [] }
    tasks := [], results := [], runningTasks := [], pendingTasks := []
    completedTasks := [], maxConcurrent := 10 }

/-- A dependency-free task as created on submission. -/
def c4task : Task :=
  { task_id := "t", task_type := "", payload := 0
    required_capabilities := [], required_tags := [], priority := 0
    timeout := 100, max_retries := 3, retry_count := 0, created_at := 0
    assigned_to := none, status := .pending, depends_on := [] }

/-- A completion result that does not name its executing agent
(`agent_id=None`) — nothing in `_handle_task_complete` rejects it. -/
def c4result : TaskResult :=
  { task_id := "t", status := .completed, result := none, error := none
    agent_id := none, started_at := none, completed_at := none
    duration := none }

/-- After submit, assign-to-`"w"`, and recording `c4result`. -/
def c4bad : CoordState :=
  handleTaskComplete (assignTaskToAgent (submitTask c4init c4task) c4task "w" 1)
    "t" c4result 2

/-- C4 counterexample.  The state `c4bad` is reachable from `c4init` by a
submit, a scheduling assignment, and a completion record — yet in it the
worker `"w"` is still `busy` while the running set is empty: because the
recorded result carries `agent_id=None`, `_handle_task_complete` removes the
task from the running map but never frees the worker.  So the invariant, over
the claim's operations as the code implements them, fails. -/
theorem c4_busy_iff_assigned_counterexample :
    Reach c4init c4bad ∧ ¬ BusyIffAssigned c4bad := by
  constructor
  · show Relation.ReflTransGen CStep c4init c4bad
    have h1 : CStep c4init (submitTask c4init c4task) :=
      CStep.submit c4init c4task rfl rfl
    have h2 : CStep (submitTask c4init c4task)
        (assignTaskToAgent (submitTask c4init c4task) c4task "w" 1) :=
      CStep.assign (submitTask c4init c4task) c4task "w" c4meta 1
        (by decide) (by decide) (by decide) (by decide) (by decide) rfl
        (by intro c hc; simp [c4task] at hc) (by intro g hg; simp [c4task] at hg)
    have h3 : CStep (assignTaskToAgent (submitTask c4init c4task) c4task "w" 1)
        c4bad :=
      CStep.record (assignTaskToAgent (submitTask c4init c4task) c4task "w" 1)
        "t" c4result 2 (Or.inl rfl)
    exact ((Relation.ReflTransGen.single h1).tail h2).tail h3
  · intro h
    have h1 : alookup c4bad.registry.metadata "w" =
        some ({ c4meta with state := "busy", last_seen := 1 }) := by decide
    have h2 := (h "w" _ h1).mp rfl
    obtain ⟨tid, htid⟩ := h2
    rw [show c4bad.runningTasks = [] from by decide] at htid
    simp [alookup] at htid

/-- C4 as amended.  Under well-behaved callers — fresh submission ids, and
completions recorded for a task in the running set with the result naming that
task's assigned worker — every reachable coordinator state satisfies
`busy ↔ assigned`. -/
theorem c4_busy_iff_assigned (s₀ s : CoordState) (h₀ : InitOk s₀)
    (hreach : ReachWF s₀ s) : BusyIffAssigned s :=
  (reachWF_coordInv s₀ s h₀ hreach).busyIff

/-- Instantiation of `c4_busy_iff_assigned` at the concrete start state. -/
theorem c4_busy_iff_assigned_witness :
    InitOk c4init ∧ BusyIffAssigned c4init := by
  have hinit : InitOk c4init := by
    refine ⟨rfl, rfl, rfl, rfl, ?_, by decide⟩
    intro a m hm
    simp only [c4init, alookup] at hm
    split at hm
    · cases Option.some.inj hm
      decide
    · exact Option.noConfusion hm
  exact ⟨hinit, c4_busy_iff_assigned c4init c4init hinit Relation.ReflTransGen.refl⟩

/-! ## C5 — dependency ordering -/

lemma handleTaskComplete_tasks_eq (s : CoordState) (tid : String)
    (r : TaskResult) (now : Nat) (t₀ : Task)
    (ht : alookup s.tasks tid = some t₀) :
    (handleTaskComplete s tid r now).tasks =
      aset s.tasks tid ({ t₀ with status := r.status }) := by
  cases hagr : r.agent_id with
  | none => rw [handleTaskComplete_eq_noagent s tid r now t₀ ht hagr]
  | some a =>
    by_cases hae : a = ""
    · subst hae
      rw [handleTaskComplete_eq_emptyagent s tid r now t₀ ht hagr]
    · rw [handleTaskComplete_eq s tid r now t₀ a ht hagr hae]

lemma handleTaskComplete_tasks_eq_notask (s : CoordState) (tid : String)
    (r : TaskResult) (now : Nat) (ht : alookup s.tasks tid = none) :
    (handleTaskComplete s tid r now).tasks = s.tasks := by
  rw [handleTaskComplete_eq_notask s tid r now ht]

/-- C5.  A coordinator step — a submit, a scheduling assignment, a timeout
handling, or a completion record — moves a task `B` that depends on `A` into
status `ASSIGNED` only when the *pre*-state already holds a `COMPLETED` result
for `A`.  Every execution of the scheduling loop is a chain of such steps, and
"B is moved to ASSIGNED" is exactly a step whose pre-state does not have `B`
`ASSIGNED` and whose post-state does; so along any execution, whatever the
submission order of `A` and `B`, `B` never reaches `ASSIGNED` before a
`COMPLETED` result has been recorded for `A`.  (The only step that can move a
task into `ASSIGNED` is the scheduling assignment, and it is guarded by
`_are_dependencies_satisfied`; submits store `PENDING` tasks and records store
terminal statuses.) -/
theorem c5_dependency_order (s s' : CoordState) (A B : String) (tB : Task)
    (hstep : CStep s s')
    (hpre : ∀ t₀, alookup s.tasks B = some t₀ → t₀.status ≠ .assigned)
    (hB : alookup s'.tasks B = some tB) (hdep : A ∈ tB.depends_on)
    (hstat : tB.status = .assigned) :
    ∃ r, alookup s.results A = some r ∧ r.status = .completed := by
  cases hstep with
  | submit t hstatP hass =>
    simp only [submitTask] at hB
    by_cases hid : B = t.task_id
    · rw [hid, alookup_aset_self] at hB
      cases Option.some.inj hB
      rw [hstatP] at hstat
      exact absurd hstat (by decide)
    · rw [alookup_aset_ne _ _ _ _ hid] at hB
      exact absurd hstat (hpre tB hB)
  | assign t a md now hcap hpend htask hready hmd hidle hcaps htags =>
    simp only [assignTaskToAgent] at hB
    by_cases hid : B = t.task_id
    · rw [hid, alookup_aset_self] at hB
      cases Option.some.inj hB
      exact depsSatisfied_spec s t hready A hdep
    · rw [alookup_aset_ne _ _ _ _ hid] at hB
      exact absurd hstat (hpre tB hB)
  | timeout t a now hrun htask helapsed =>
    by_cases hrt : t.retry_count < t.max_retries
    · simp only [handleTaskTimeout, if_pos hrt] at hB
      by_cases hid : B = t.task_id
      · rw [hid, alookup_aset_self] at hB
        cases Option.some.inj hB
        exact TaskStatus.noConfusion
          (show TaskStatus.retrying = TaskStatus.assigned from hstat)
      · rw [alookup_aset_ne _ _ _ _ hid] at hB
        exact absurd hstat (hpre tB hB)
    · simp only [handleTaskTimeout, if_neg hrt] at hB
      rw [handleTaskComplete_tasks_eq s t.task_id _ now t htask] at hB
      by_cases hid : B = t.task_id
      · rw [hid, alookup_aset_self] at hB
        cases Option.some.inj hB
        exact TaskStatus.noConfusion
          (show TaskStatus.failed = TaskStatus.assigned from hstat)
      · rw [alookup_aset_ne _ _ _ _ hid] at hB
        exact absurd hstat (hpre tB hB)
  | record task_id r now hterm =>
    cases hbt : alookup s.tasks task_id with
    | none =>
      rw [handleTaskComplete_tasks_eq_notask s task_id r now hbt] at hB
      exact absurd hstat (hpre tB hB)
    | some t₀ =>
      rw [handleTaskComplete_tasks_eq s task_id r now t₀ hbt] at hB
      by_cases hid : B = task_id
      · rw [hid, alookup_aset_self] at hB
        cases Option.some.inj hB
        have hstat' : r.status = TaskStatus.assigned := hstat
        rcases hterm with h | h | h <;>
          (rw [h] at hstat'; exact TaskStatus.noConfusion hstat')
      · rw [alookup_aset_ne _ _ _ _ hid] at hB
        exact absurd hstat (hpre tB hB)

/-- Task `A` of the C5 scenario (dependency-free). -/
def c5tA : Task := { c4task with task_id := "A" }

/-- Task `B`, submitted first, depending on `A`. -/
def c5tB : Task := { c4task with task_id := "B", depends_on := ["A"] }

/-- The completion result a worker reports for `A`. -/
def c5resA : TaskResult :=
  { task_id := "A", status := .completed, result := none, error := none
    agent_id := some "w", started_at := none, completed_at := none
    duration := none }

/-- The C5 execution: submit `B`, submit `A`, assign `A`, record `A`
completed, assign `B`. -/
def c5s2 : CoordState := submitTask (submitTask c4init c5tB) c5tA

/-- State after assigning `A` to the worker. -/
def c5s3 : CoordState := assignTaskToAgent c5s2 c5tA "w" 1

/-- State after `A`'s completion is recorded. -/
def c5s4 : CoordState := handleTaskComplete c5s3 "A" c5resA 2

/-- Final state: `B` assigned. -/
def c5s5 : CoordState := assignTaskToAgent c5s4 c5tB "w" 3

/-- The assignment step of the concrete C5 execution: `B` (depending on `A`)
moves from `PENDING` to `ASSIGNED` only now that `A`'s `COMPLETED` result is
recorded in `c5s4`. -/
lemma c5assignStep : CStep c5s4 c5s5 :=
  CStep.assign c5s4 c5tB "w" ({ c4meta with state := "idle", last_seen := 2 }) 3
    (by decide) (by decide) (by decide) (by decide) (by decide) rfl
    (by intro c hc; simp [c5tB, c4task] at hc)
    (by intro g hg; simp [c5tB, c4task] at hg)

/-- Instantiation of `c5_dependency_order` at the assignment step of the
concrete C5 execution: the pre-state indeed holds `A`'s `COMPLETED` result. -/
theorem c5_dependency_order_witness :
    ∃ r, alookup c5s4.results "A" = some r ∧ r.status = .completed := by
  refine c5_dependency_order c5s4 c5s5 "A" "B"
    ({ c5tB with assigned_to := some "w", status := .assigned })
    c5assignStep ?_ (by decide) (by decide) rfl
  intro t₀ ht₀
  rw [show alookup c5s4.tasks "B" = some c5tB from by decide] at ht₀
  cases Option.some.inj ht₀
  decide

/-! ## C7 — priority order with stable ties -/

lemma mem_insertByPriority (t x : Task) (l : List Task) :
    x ∈ insertByPriority t l ↔ x = t ∨ x ∈ l := by
  induction l with
  | nil => simp [insertByPriority]
  | cons u us ih =>
    by_cases hle : u.priority ≤ t.priority <;>
      simp [insertByPriority, hle, ih] <;> tauto

lemma pairwise_insertByPriority (t : Task) (l : List Task)
    (h : l.Pairwise (fun a b => b.priority ≤ a.priority)) :
    (insertByPriority t l).Pairwise (fun a b => b.priority ≤ a.priority) := by
  induction l with
  | nil => simp [insertByPriority]
  | cons u us ih =>
    rcases List.pairwise_cons.mp h with ⟨hu, hus⟩
    by_cases hle : u.priority ≤ t.priority
    · simp only [insertByPriority, if_pos hle]
      refine List.pairwise_cons.mpr ⟨?_, h⟩
      intro x hx
      rcases List.mem_cons.mp hx with rfl | hx
      · exact hle
      · exact le_trans (hu x hx) hle
    · simp only [insertByPriority, if_neg hle]
      refine List.pairwise_cons.mpr ⟨?_, ih hus⟩
      intro x hx
      rcases (mem_insertByPriority t x us).mp hx with rfl | hx
      · exact le_of_lt (lt_of_not_le hle)
      · exact hu x hx

lemma filter_insertByPriority (t : Task) (l : List Task) (p : Int) :
    (insertByPriority t l).filter (fun u => decide (u.priority = p)) =
      if t.priority = p then
        t :: l.filter (fun u => decide (u.priority = p))
      else l.filter (fun u => decide (u.priority = p)) := by
  induction l with
  | nil =>
    by_cases h : t.priority = p <;> simp [insertByPriority, List.filter, h]
  | cons u us ih =>
    by_cases hle : u.priority ≤ t.priority
    · simp only [insertByPriority, if_pos hle, List.filter_cons]
      by_cases ht : t.priority = p <;> simp [ht]
    · simp only [insertByPriority, if_neg hle, List.filter_cons]
      by_cases hu : u.priority = p
      · have ht : ¬ t.priority = p := by
          intro h
          rw [h, ← hu] at hle
          exact hle le_rfl
        simp [hu, ht, ih]
      · by_cases ht : t.priority = p <;> simp [hu, ht, ih]

lemma sortByPriorityDesc_pairwise (l : List Task) :
    (sortByPriorityDesc l).Pairwise (fun a b => b.priority ≤ a.priority) := by
  induction l with
  | nil => simp [sortByPriorityDesc]
  | cons t ts ih => exact pairwise_insertByPriority t _ ih

lemma sortByPriorityDesc_filter (l : List Task) (p : Int) :
    (sortByPriorityDesc l).filter (fun u => decide (u.priority = p)) =
      l.filter (fun u => decide (u.priority = p)) := by
  induction l with
  | nil => rfl
  | cons t ts ih =>
    show (insertByPriority t (sortByPriorityDesc ts)).filter _ = _
    rw [filter_insertByPriority, List.filter_cons]
    by_cases h : t.priority = p <;> simp [h, ih]

lemma insertByPriority_perm (t : Task) (l : List Task) :
    List.Perm (insertByPriority t l) (t :: l) := by
  induction l with
  | nil => simp [insertByPriority]
  | cons u us ih =>
    by_cases hle : u.priority ≤ t.priority
    · simp [insertByPriority, hle]
    · simp only [insertByPriority, if_neg hle]
      exact (List.Perm.cons u ih).trans (List.Perm.swap t u us)

lemma sortByPriorityDesc_perm (l : List Task) :
    List.Perm (sortByPriorityDesc l) l := by
  induction l with
  | nil => exact List.Perm.refl []
  | cons t ts ih =>
    exact (insertByPriority_perm t _).trans (List.Perm.cons t ih)

lemma schedulePassGo_sublist (sel : CoordState → Task → Option String)
    (now : Nat) (ts : List Task) (s : CoordState) :
    List.Sublist (schedulePassGo sel now ts s).2 (ts.map Task.task_id) := by
  induction ts generalizing s with
  | nil => simp [schedulePassGo]
  | cons t ts ih =>
    cases h : sel s t with
    | some a =>
      simp only [schedulePassGo, h]
      exact List.Sublist.cons₂ _ (ih _)
    | none =>
      simp only [schedulePassGo, h]
      exact List.Sublist.cons _ (ih s)

lemma scheduleTasks_sublist (sel : CoordState → Task → Option String)
    (now : Nat) (s : CoordState) :
    List.Sublist (scheduleTasks sel now s).2
      ((scheduleOrder s).map Task.task_id) := by
  unfold scheduleTasks
  by_cases h : s.maxConcurrent ≤ s.runningTasks.length
  · simp [h]
  · simp only [if_neg h]
    exact (schedulePassGo_sublist _ _ _ _).trans
      ((List.take_sublist _ _).map _)

lemma foldl_submit_pending (ts : List Task) (s : CoordState) :
    (ts.foldl submitTask s).pendingTasks =
      s.pendingTasks ++ ts.map Task.task_id := by
  induction ts generalizing s with
  | nil => simp
  | cons t ts ih =>
    rw [List.foldl_cons, ih]
    simp [submitTask, List.append_assoc]

/-- C7.  The scheduling pass traverses ready tasks in the order
`scheduleOrder`, a stable descending sort of the pending-queue snapshot:
(1) priorities are non-increasing along it; (2) within each priority, the
order is exactly the ready (pending-queue) order, i.e. submission order for
tasks pending since submission; (3) it is a permutation of the ready set;
(4) the ids a pass assigns, whatever `_select_agent_for_task` picks, form a
subsequence of that order — so a higher-priority ready task is never assigned
after a lower-priority one in the same pass; (5) submission appends to the
pending queue in order, fixing the tie-break. -/
theorem c7_priority_order (s : CoordState) (p : Int)
    (sel : CoordState → Task → Option String) (now : Nat)
    (ts : List Task) (s₀ : CoordState) :
    (scheduleOrder s).Pairwise (fun a b => b.priority ≤ a.priority) ∧
    (scheduleOrder s).filter (fun u => decide (u.priority = p)) =
      (readyTasks s).filter (fun u => decide (u.priority = p)) ∧
    List.Perm (scheduleOrder s) (readyTasks s) ∧
    List.Sublist (scheduleTasks sel now s).2 ((scheduleOrder s).map Task.task_id) ∧
    (ts.foldl submitTask s₀).pendingTasks =
      s₀.pendingTasks ++ ts.map Task.task_id :=
  ⟨sortByPriorityDesc_pairwise _, sortByPriorityDesc_filter _ _,
   sortByPriorityDesc_perm _, scheduleTasks_sublist _ _ _,
   foldl_submit_pending _ _⟩

/-! ## C8 — spawn rollback on a failing init hook -/

lemma registerAgent_queues_nodup (bus : BusState) (agent_id : String)
    (h : (akeys bus.queues).Nodup) :
    (akeys (registerAgent bus agent_id).queues).Nodup := by
  unfold registerAgent
  cases hq : alookup bus.queues agent_id with
  | some q => exact h
  | none =>
    have hnm : agent_id ∉ akeys bus.queues := by
      rw [mem_akeys_iff_isSome, hq]
      simp
    show (akeys (aset bus.queues agent_id _)).Nodup
    rw [aset_of_not_mem _ _ _ hnm]
    unfold akeys
    rw [List.map_append, List.nodup_append]
    refine ⟨h, List.nodup_singleton _, ?_⟩
    intro x hx hx'
    simp only [List.map_cons, List.map_nil, List.mem_singleton] at hx'
    subst hx'
    exact hnm hx

/-- C8.  When the worker's `initialize()` hook raises during `spawn_agent`
(for a known type and a fresh id), the exception propagates and the rollback
leaves no trace: the id is absent from the lifecycle instances, absent from
the registry (which was never touched — registration happens only after a
successful init), and holds no mailboxes on the bus. -/
theorem c8_spawn_rollback (lc : LifecycleState) (bus : BusState)
    (reg : RegistryState) (agent_type agent_id : String)
    (caps tags : List String) (now : Nat)
    (htype : agent_type ∈ lc.agentTypes)
    (hfresh : alookup lc.instances agent_id = none)
    (hreg : agent_id ∉ reg.agents)
    (hbusNodup : (akeys bus.queues).Nodup) :
    (spawnAgent lc bus reg agent_type agent_id caps tags now true).2 =
      .error .initHookRaised ∧
    alookup (spawnAgent lc bus reg agent_type agent_id caps tags now
      true).1.1.instances agent_id = none ∧
    agent_id ∉ (spawnAgent lc bus reg agent_type agent_id caps tags now
      true).1.2.2.agents ∧
    alookup (spawnAgent lc bus reg agent_type agent_id caps tags now
      true).1.2.1.queues agent_id = none := by
  have hnotininst : agent_id ∉ akeys lc.instances := by
    rw [mem_akeys_iff_isSome, hfresh]
    simp
  unfold spawnAgent
  rw [if_neg (not_not_intro htype)]
  rw [if_neg (by rw [hfresh]; simp)]
  rw [if_pos rfl]
  refine ⟨rfl, ?_, hreg, ?_⟩
  · show alookup (aerase (aset lc.instances agent_id _) agent_id) agent_id = none
    rw [aset_of_not_mem _ _ _ hnotininst,
      aerase_append_of_not_mem _ _ _ hnotininst]
    exact hfresh
  · show alookup (aerase (registerAgent bus agent_id).queues agent_id)
      agent_id = none
    exact alookup_aerase_self _ _ (registerAgent_queues_nodup bus agent_id hbusNodup)

/-- A lifecycle manager knowing the type `"worker"`, with no live instance. -/
def c8lc : LifecycleState := { instances := [], agentTypes := ["worker"] }

/-- An empty registry for the C8 scenario. -/
def c8reg : RegistryState :=
  { agents := [], metadata := [], capIndex := [], tagIndex := [] }

/-- Instantiation of `c8_spawn_rollback`: spawning `"a"` with a failing init
hook errors out and leaves no instance, no registry entry, no mailboxes. -/
theorem c8_spawn_rollback_witness :
    (spawnAgent c8lc (BusState.new 5) c8reg "worker" "a" ["c"] ["t"] 0 true).2 =
      .error .initHookRaised ∧
    alookup (spawnAgent c8lc (BusState.new 5) c8reg "worker" "a" ["c"] ["t"] 0
      true).1.1.instances "a" = none ∧
    "a" ∉ (spawnAgent c8lc (BusState.new 5) c8reg "worker" "a" ["c"] ["t"] 0
      true).1.2.2.agents ∧
    alookup (spawnAgent c8lc (BusState.new 5) c8reg "worker" "a" ["c"] ["t"] 0
      true).1.2.1.queues "a" = none :=
  c8_spawn_rollback c8lc (BusState.new 5) c8reg "worker" "a" ["c"] ["t"] 0
    (by decide) (by decide) (by decide) (by decide)

/-! ## C9 / C10 — payload aliasing and raw-string clone types -/

lemma heapGet_heapSetKey_of_some (h : Heap) (addr : Nat) (k v : String)
    (dd : PyDict) (hd : heapGet h addr = some dd) :
    heapGet (heapSetKey h addr k v) addr = some (aset dd k v) := by
  induction h with
  | nil => simp [heapGet] at hd
  | cons e rest ih =>
    obtain ⟨a, d0⟩ := e
    by_cases ha : a = addr
    · subst ha
      rw [heapGet, if_pos rfl] at hd
      cases Option.some.inj hd
      simp [heapSetKey, heapGet]
    · rw [heapGet, if_neg ha] at hd
      simp [heapSetKey, heapGet, ha, ih hd]

lemma alookup_aset_isSome {β : Type} (l : List (String × β)) (k k' : String)
    (v : β) (h : (alookup l k').isSome) : (alookup (aset l k v) k').isSome := by
  by_cases e : k' = k
  · subst e
    rw [alookup_aset_self]
    rfl
  · rw [alookup_aset_ne _ _ _ _ e]
    exact h

/-- What holds of the heap cell once `msg.payload["topic"] = topic` ran. -/
def TopicWritten (heap : Heap) (addr : Nat) (topic : String) : Prop :=
  ∃ dd, heapGet heap addr = some dd ∧ alookup dd "topic" = some topic

lemma publishGo_props (topic : String) (d : MessageDict) (ids : List String) :
    ∀ (bus : BusState) (heap : Heap),
      (heapGet heap d.payload).isSome →
      ∃ out : BusState × Heap × Nat × List AgentMessage,
        publishGo topic (some d) ids bus heap = some out ∧
        (∀ c ∈ out.2.2.2,
          c.payload = d.payload ∧ c.msg_type = .str d.msg_type_value) ∧
        (TopicWritten heap d.payload topic →
          TopicWritten out.2.1 d.payload topic) ∧
        ((∃ a ∈ ids, (alookup bus.queues a).isSome) →
          TopicWritten out.2.1 d.payload topic) := by
  induction ids with
  | nil =>
    intro bus heap hsome
    refine ⟨(bus, heap, 0, []), rfl, by simp, fun hp => hp, ?_⟩
    rintro ⟨a, ha, -⟩
    simp at ha
  | cons x xs ih =>
    intro bus heap hsome
    obtain ⟨dd, hdd⟩ : ∃ dd, heapGet heap d.payload = some dd := by
      cases hx : heapGet heap d.payload with
      | none => rw [hx] at hsome; simp at hsome
      | some dd => exact ⟨dd, rfl⟩
    cases hq : alookup bus.queues x with
    | none =>
      obtain ⟨out, hgo, hdel, hpres, hex⟩ := ih bus heap hsome
      refine ⟨out, ?_, hdel, hpres, ?_⟩
      · simp only [publishGo, hq]
        exact hgo
      · rintro ⟨a, ha, haq⟩
        rcases List.mem_cons.mp ha with rfl | ha
        · rw [hq] at haq
          simp at haq
        · exact hex ⟨a, ha, haq⟩
    | some q =>
      set msg : AgentMessage := { msgOfDict d with recipient_id := x } with hmsg
      have hmp : msg.payload = d.payload := rfl
      set heap₁ := heapSetKey heap msg.payload "topic" topic with hheap₁
      have hget₁ : heapGet heap₁ d.payload = some (aset dd "topic" topic) := by
        rw [hheap₁, hmp]
        exact heapGet_heapSetKey_of_some heap d.payload _ _ dd hdd
      have hsome₁ : (heapGet heap₁ d.payload).isSome := by
        rw [hget₁]
        rfl
      have hwritten₁ : TopicWritten heap₁ d.payload topic :=
        ⟨aset dd "topic" topic, hget₁, alookup_aset_self _ _ _⟩
      rcases hput : MessageQueue.putInbound q msg with ⟨b, q'⟩
      cases b
      · obtain ⟨out, hgo, hdel, hpres, -⟩ :=
          ih { bus with queues := aset bus.queues x q' } heap₁ hsome₁
        refine ⟨out, ?_, hdel, fun _ => hpres hwritten₁, fun _ => hpres hwritten₁⟩
        simp only [publishGo, hq, hput, hgo]
        rfl
      · obtain ⟨out, hgo, hdel, hpres, -⟩ :=
          ih { bus with queues := aset bus.queues x q' } heap₁ hsome₁
        refine ⟨(out.1, out.2.1, out.2.2.1 + 1, msg :: out.2.2.2), ?_, ?_,
          fun _ => hpres hwritten₁, fun _ => hpres hwritten₁⟩
        · simp only [publishGo, hq, hput, hgo]
          rfl
        · intro c hc
          rcases List.mem_cons.mp hc with rfl | hc
          · exact ⟨rfl, rfl⟩
          · exact hdel c hc

/-- A registered agent but no subscriber to any topic. -/
def c9bus : BusState := registerAgent (BusState.new 4) "s"

/-- A heap holding the message's (empty) payload dict at address 0. -/
def c9heap : Heap := [(0, [])]

/-- The published message; its payload is the dict at address 0. -/
def c9msg : AgentMessage :=
  { msg_id := "p1", msg_type := .enum .DATA_PUSH, sender_id := "x"
    recipient_id := "", timestamp := 0, payload := 0
    correlation_id := "", reply_to := "" }

/-- C9 counterexample.  With no subscriber to the topic, `publish` builds no
clone and performs no write: the caller's payload dict is untouched and never
gains a `"topic"` key — the claim's unconditional \"writes the key into the
caller's payload\" fails. -/
theorem c9_publish_no_subscriber_no_write :
    publishMsg c9bus c9heap "tp" c9msg = some (c9bus, c9heap, 0, []) ∧
    alookup ((heapGet c9heap c9msg.payload).getD []) "topic" = none := by
  exact ⟨rfl, rfl⟩

/-- C9 as amended.  For a message whose `msg_type` is a `MessageType` member
and a topic with at least one subscriber whose mailboxes exist, `publish`
writes `"topic"` into the *caller's own* payload dict (the clone's payload is
the same object, so the write lands in the original), and every delivered
clone aliases the caller's payload address. -/
theorem c9_publish_mutates_payload (bus : BusState) (heap : Heap)
    (topic : String) (m : AgentMessage) (t : MessageType) (a : String)
    (hmt : m.msg_type = .enum t)
    (hsub : a ∈ (alookup bus.subscribers topic).getD [])
    (hq : (alookup bus.queues a).isSome)
    (hheap : (heapGet heap m.payload).isSome) :
    ∃ out : BusState × Heap × Nat × List AgentMessage,
      publishMsg bus heap topic m = some out ∧
      (∃ dd, heapGet out.2.1 m.payload = some dd ∧
        alookup dd "topic" = some topic) ∧
      ∀ c ∈ out.2.2.2, c.payload = m.payload := by
  have hd : msgToDict m = some
      { msg_id := m.msg_id, msg_type_value := mtValue t
        sender_id := m.sender_id, recipient_id := m.recipient_id
        timestamp := m.timestamp, payload := m.payload
        correlation_id := m.correlation_id, reply_to := m.reply_to } := by
    unfold msgToDict
    rw [hmt]
  obtain ⟨out, hgo, hdel, -, hex⟩ :=
    publishGo_props topic
      ({ msg_id := m.msg_id, msg_type_value := mtValue t
         sender_id := m.sender_id, recipient_id := m.recipient_id
         timestamp := m.timestamp, payload := m.payload
         correlation_id := m.correlation_id, reply_to := m.reply_to })
      ((alookup bus.subscribers topic).getD []) bus heap hheap
  refine ⟨out, ?_, hex ⟨a, hsub, hq⟩, fun c hc => (hdel c hc).1⟩
  unfold publishMsg
  rw [hd]
  exact hgo

/-- A bus with one registered agent subscribed to `"tp"`. -/
def c9bus2 : BusState := subscribeAgent (registerAgent (BusState.new 4) "s") "s" "tp"

/-- Instantiation of `c9_publish_mutates_payload` on `c9bus2`: the write
reaches the caller's payload dict. -/
theorem c9_publish_mutates_payload_witness :
    c9msg.msg_type = .enum .DATA_PUSH ∧
    ∃ out : BusState × Heap × Nat × List AgentMessage,
      publishMsg c9bus2 c9heap "tp" c9msg = some out ∧
      (∃ dd, heapGet out.2.1 c9msg.payload = some dd ∧
        alookup dd "topic" = some "tp") ∧
      ∀ c ∈ out.2.2.2, c.payload = c9msg.payload := by
  refine ⟨rfl, ?_⟩
  exact c9_publish_mutates_payload c9bus2 c9heap "tp" c9msg .DATA_PUSH "s"
    rfl (by decide) (by decide) (by decide)

lemma broadcastGo_clone_types (d : MessageDict) (senderId : String) (ex : Bool)
    (qs : List (String × MessageQueue)) :
    ∃ out : List (String × MessageQueue) × Nat × List AgentMessage,
      broadcastGo (some d) senderId ex qs = some out ∧
      ∀ c ∈ out.2.2, c.msg_type = .str d.msg_type_value := by
  induction qs with
  | nil => exact ⟨([], 0, []), rfl, by simp⟩
  | cons e rest ih =>
    obtain ⟨aid, q⟩ := e
    obtain ⟨out, hgo, hdel⟩ := ih
    by_cases hskip : ex ∧ aid = senderId
    · refine ⟨((aid, q) :: out.1, out.2.1, out.2.2), ?_, hdel⟩
      simp only [broadcastGo, if_pos hskip, hgo]
      rfl
    · rcases hput : MessageQueue.putInbound q ({ msgOfDict d with recipient_id := aid }) with ⟨b, q'⟩
      cases b
      · refine ⟨((aid, q') :: out.1, out.2.1, out.2.2), ?_, hdel⟩
        simp only [broadcastGo, if_neg hskip, hput, hgo]
        rfl
      · refine ⟨((aid, q') :: out.1, out.2.1 + 1,
          ({ msgOfDict d with recipient_id := aid }) :: out.2.2), ?_, ?_⟩
        · simp only [broadcastGo, if_neg hskip, hput, hgo]
          rfl
        · intro c hc
          rcases List.mem_cons.mp hc with rfl | hc
          · rfl
          · exact hdel c hc

lemma publishGo_clone_types (topic : String) (d : MessageDict) (ids : List String) :
    ∀ (bus : BusState) (heap : Heap),
      ∃ out : BusState × Heap × Nat × List AgentMessage,
        publishGo topic (some d) ids bus heap = some out ∧
        ∀ c ∈ out.2.2.2, c.msg_type = .str d.msg_type_value := by
  induction ids with
  | nil => exact fun bus heap => ⟨(bus, heap, 0, []), rfl, by simp⟩
  | cons x xs ih =>
    intro bus heap
    cases hq : alookup bus.queues x with
    | none =>
      obtain ⟨out, hgo, hdel⟩ := ih bus heap
      refine ⟨out, ?_, hdel⟩
      simp only [publishGo, hq]
      exact hgo
    | some q =>
      rcases hput : MessageQueue.putInbound q ({ msgOfDict d with recipient_id := x }) with ⟨b, q'⟩
      cases b
      · obtain ⟨out, hgo, hdel⟩ :=
          ih { bus with queues := aset bus.queues x q' }
            (heapSetKey heap ({ msgOfDict d with recipient_id := x }).payload "topic" topic)
        refine ⟨out, ?_, hdel⟩
        simp only [publishGo, hq, hput, hgo]
        rfl
      · obtain ⟨out, hgo, hdel⟩ :=
          ih { bus with queues := aset bus.queues x q' }
            (heapSetKey heap ({ msgOfDict d with recipient_id := x }).payload "topic" topic)
        refine ⟨(out.1, out.2.1, out.2.2.1 + 1,
          ({ msgOfDict d with recipient_id := x }) :: out.2.2.2), ?_, ?_⟩
        · simp only [publishGo, hq, hput, hgo]
          rfl
        · intro c hc
          rcases List.mem_cons.mp hc with rfl | hc
          · rfl
          · exact hdel c hc

/-- C10.  Every clone delivered by `broadcast` (and by `publish`) carries
`msg_type` as the raw value *string* of the original's enum member.  Such a
clone is never `==`-equal to the original message (the `msg_type` fields
differ, and dataclass equality is field-tuple equality), never matches a
history filter keyed on a `MessageType` member, and never hits a handler in a
dispatch table keyed by `MessageType`. -/
theorem c10_clone_raw_string_msg_type (bus : BusState) (m : AgentMessage)
    (t : MessageType) (ex : Bool) (heap : Heap) (topic : String)
    (hmt : m.msg_type = .enum t) :
    (∃ out : BusState × Nat × List AgentMessage,
      broadcastMsg bus m ex = some out ∧
      ∀ c ∈ out.2.2,
        c.msg_type = .str (mtValue t) ∧
        msgTypeEqB c.msg_type m.msg_type = false ∧
        (∀ h : Heap, pyEqMessageB h c m = false) ∧
        (∀ t' : MessageType, msgTypeMatches c t' = false) ∧
        (∀ handlers : List (MessageType × Nat),
          handlersGet handlers c.msg_type = none)) ∧
    (∃ out : BusState × Heap × Nat × List AgentMessage,
      publishMsg bus heap topic m = some out ∧
      ∀ c ∈ out.2.2.2, c.msg_type = .str (mtValue t)) := by
  have hd : msgToDict m = some
      { msg_id := m.msg_id, msg_type_value := mtValue t
        sender_id := m.sender_id, recipient_id := m.recipient_id
        timestamp := m.timestamp, payload := m.payload
        correlation_id := m.correlation_id, reply_to := m.reply_to } := by
    unfold msgToDict
    rw [hmt]
  constructor
  · obtain ⟨out, hgo, hdel⟩ := broadcastGo_clone_types
      ({ msg_id := m.msg_id, msg_type_value := mtValue t
         sender_id := m.sender_id, recipient_id := m.recipient_id
         timestamp := m.timestamp, payload := m.payload
         correlation_id := m.correlation_id, reply_to := m.reply_to })
      m.sender_id ex bus.queues
    refine ⟨(addToHistory { bus with queues := out.1 } m, out.2.1, out.2.2), ?_, ?_⟩
    · unfold broadcastMsg
      rw [hd, hgo]
      rfl
    · intro c hc
      have hct := hdel c hc
      refine ⟨hct, ?_, ?_, ?_, ?_⟩
      · rw [hct, hmt]
        rfl
      · intro h
        unfold pyEqMessageB
        rw [hct, hmt]
        show (_ && msgTypeEqB (.str (mtValue t)) (.enum t) && _ && _ && _ && _ && _ && _) = false
        rw [show msgTypeEqB (.str (mtValue t)) (.enum t) = false from rfl]
        simp
      · intro t'
        rw [msgTypeMatches, hct]
        rfl
      · intro handlers
        rw [hct]
        rfl
  · obtain ⟨out, hgo, hdel⟩ := publishGo_clone_types topic
      ({ msg_id := m.msg_id, msg_type_value := mtValue t
         sender_id := m.sender_id, recipient_id := m.recipient_id
         timestamp := m.timestamp, payload := m.payload
         correlation_id := m.correlation_id, reply_to := m.reply_to })
      ((alookup bus.subscribers topic).getD []) bus heap
    refine ⟨out, ?_, hdel⟩
    unfold publishMsg
    rw [hd]
    exact hgo

/-- Instantiation of `c10_clone_raw_string_msg_type` on the concrete bus of
the C2 scenario with its live recipient. -/
theorem c10_clone_raw_string_msg_type_witness :
    c2msg1.msg_type = .enum .DATA_PUSH ∧
    ((∃ out : BusState × Nat × List AgentMessage,
      broadcastMsg c2bus c2msg1 true = some out ∧
      ∀ c ∈ out.2.2,
        c.msg_type = .str (mtValue .DATA_PUSH) ∧
        msgTypeEqB c.msg_type c2msg1.msg_type = false ∧
        (∀ h : Heap, pyEqMessageB h c c2msg1 = false) ∧
        (∀ t' : MessageType, msgTypeMatches c t' = false) ∧
        (∀ handlers : List (MessageType × Nat),
          handlersGet handlers c.msg_type = none)) ∧
    (∃ out : BusState × Heap × Nat × List AgentMessage,
      publishMsg c2bus c9heap "tp" c2msg1 = some out ∧
      ∀ c ∈ out.2.2.2, c.msg_type = .str (mtValue .DATA_PUSH))) := by
  refine ⟨rfl, ?_⟩
  exact c10_clone_raw_string_msg_type c2bus c2msg1 .DATA_PUSH true c9heap "tp" rfl

/-! ## C3 — timeout handling: RETRYING, not PENDING -/

/-- The timed-out task of the scenario: first timeout, retries remaining. -/
def c3task : Task :=
  { task_id := "t", task_type := "job", payload := 0
    required_capabilities := [], required_tags := [], priority := 0
    timeout := 1, max_retries := 2, retry_count := 0, created_at := 0
    assigned_to := some "w", status := .assigned, depends_on := [] }

/-- Coordinator state with `c3task` running on the busy worker `"w"`. -/
def c3state : CoordState :=
  { registry :=
      { agents := ["w"]
        metadata := [("w",
          { agent_id := "w", agent_type := "wk", capabilities := []
            state := "busy", created_at := 0, last_seen := 0, tags := [] })]
        capIndex := [], tagIndex := [] }
    tasks := [("t", c3task)], results := [], runningTasks := [("t", "w")]
    pendingTasks := [], completedTasks := [], maxConcurrent := 10 }

/-- C3 counterexample.  After `_handle_task_timeout` on a task with
`retry_count < max_retries`, the stored status is `RETRYING`: it is *not*
reset to `PENDING` (the code never writes `PENDING` back), contradicting the
claimed reset. -/
theorem c3_status_not_reset_to_pending :
    (alookup (handleTaskTimeout c3state c3task "w" 5).tasks "t").map Task.status =
      some .retrying ∧
    (alookup (handleTaskTimeout c3state c3task "w" 5).tasks "t").map Task.status ≠
      some .pending := by
  decide

/-- C3 as amended.  While retries remain, `_handle_task_timeout` increments
`retry_count`, sets the status to `RETRYING` (leaving it there until a later
reassignment), clears the assigned agent, removes the task from the running
map, re-appends it to the pending queue (so it is rescheduled), and flips the
worker back to `idle` unconditionally; once retries are exhausted it records a
`FAILED` result with error string `"Task timed out"` and flips the worker back
to `idle` — except that on this exhausted path the idle flip goes through
`_handle_task_complete`'s `if result.agent_id:` truthiness test, so a worker
whose id is the empty string is *not* freed there (the registry is left
untouched). -/
theorem c3_timeout_retry_behaviour (s : CoordState) (t : Task) (a : String)
    (now : Nat) (htask : alookup s.tasks t.task_id = some t)
    (hnodup : (akeys s.runningTasks).Nodup) :
    (t.retry_count < t.max_retries →
      alookup (handleTaskTimeout s t a now).tasks t.task_id =
        some { t with retry_count := t.retry_count + 1
                      status := .retrying, assigned_to := none } ∧
      alookup (handleTaskTimeout s t a now).runningTasks t.task_id = none ∧
      t.task_id ∈ (handleTaskTimeout s t a now).pendingTasks ∧
      ∀ m, alookup s.registry.metadata a = some m →
        alookup (handleTaskTimeout s t a now).registry.metadata a =
          some { m with state := "idle", last_seen := now }) ∧
    (t.max_retries ≤ t.retry_count →
      alookup (handleTaskTimeout s t a now).results t.task_id =
        some { task_id := t.task_id, status := .failed, result := none
               error := some "Task timed out", agent_id := some a
               started_at := none, completed_at := none, duration := none } ∧
      alookup (handleTaskTimeout s t a now).runningTasks t.task_id = none ∧
      (alookup (handleTaskTimeout s t a now).tasks t.task_id).map Task.status =
        some .failed ∧
      (a ≠ "" → ∀ m, alookup s.registry.metadata a = some m →
        alookup (handleTaskTimeout s t a now).registry.metadata a =
          some { m with state := "idle", last_seen := now }) ∧
      (a = "" → (handleTaskTimeout s t a now).registry = s.registry)) := by
  constructor
  · intro hlt
    simp only [handleTaskTimeout, if_pos hlt]
    refine ⟨alookup_aset_self _ _ _, alookup_aerase_self _ _ hnodup, ?_, ?_⟩
    · exact List.mem_append_right _ (List.mem_singleton.mpr rfl)
    · intro m hm
      exact alookup_updateAgentState_self _ _ _ _ _ hm
  · intro hge
    have hnlt : ¬ t.retry_count < t.max_retries := not_lt.mpr hge
    by_cases hae : a = ""
    · subst hae
      simp only [handleTaskTimeout, if_neg hnlt]
      rw [handleTaskComplete_eq_emptyagent s t.task_id _ now t htask rfl]
      refine ⟨alookup_aset_self _ _ _, alookup_aerase_self _ _ hnodup, ?_, ?_, ?_⟩
      · rw [alookup_aset_self]
        rfl
      · intro hne
        exact absurd rfl hne
      · intro _
        rfl
    · simp only [handleTaskTimeout, if_neg hnlt]
      rw [handleTaskComplete_eq s t.task_id _ now t a htask rfl hae]
      refine ⟨alookup_aset_self _ _ _, alookup_aerase_self _ _ hnodup, ?_, ?_, ?_⟩
      · rw [alookup_aset_self]
        rfl
      · intro _ m hm
        exact alookup_updateAgentState_self _ _ _ _ _ hm
      · intro h
        exact absurd h hae

/-- Concrete instantiation of `c3_timeout_retry_behaviour` on `c3state`:
retries remain, so the stored task comes back with `retry_count = 1`, status
`RETRYING`, no assigned agent. -/
theorem c3_timeout_retry_behaviour_witness :
    c3task.retry_count < c3task.max_retries ∧
    alookup c3state.tasks c3task.task_id = some c3task ∧
    alookup (handleTaskTimeout c3state c3task "w" 5).tasks c3task.task_id =
      some { c3task with retry_count := c3task.retry_count + 1
                         status := .retrying, assigned_to := none } := by
  refine ⟨by decide, by decide, ?_⟩
  exact ((c3_timeout_retry_behaviour c3state c3task "w" 5 (by decide)
    (by decide)).1 (by decide)).1

/-- C6.  At `now = 100` with `timeout = 10` the single worker is stale, so the
loop unregisters it — mutating `self._metadata` during its own iteration — and
the iterator's next step raises `RuntimeError`: the call never returns the
promised id list, for any return value. -/
theorem c6_cleanup_stale_raises :
    cleanupStaleAgents c6reg 100 10 = .error () ∧
    ∀ out, cleanupStaleAgents c6reg 100 10 ≠ .ok out := by
  refine ⟨by rfl, ?_⟩
  intro out h
  rw [show cleanupStaleAgents c6reg 100 10 = .error () from by rfl] at h
  exact Except.noConfusion h

end IAOps
